import Mathlib

/-! PPTP client start/stop (`router/rc/pptp_client.c`)

A shallow embedding of `start_pptp_client` and `stop_pptp_client`.

The two C functions only talk to the operating system and to the router's
helper library, so the embedding consists of

* a small model of the part of the world they touch: a filesystem (a finite
  table from absolute paths to nodes) and a process table;
* the library calls they make (`unlink`, `mkdir`, `symlink`, `fopen`,
  `fprintf`, `fclose`, `rmdir`, `pidof`, `killall`, `_eval`, `nvram_get`, ...),
  each acting on that world and appending one entry to a call log;
* the two functions themselves, translated statement by statement.

What the model takes for granted:

* paths are the canonical absolute paths the code spells out; a symbolic link
  is stored with its target and never followed;
* `unlink`, `mkdir`, `rmdir` and `rm -rf` succeed or fail as the path table
  dictates; `symlink`, `fopen` and the launcher can moreover fail because the
  environment says so (permissions, a full or read-only filesystem, `exec`);
* `SIGTERM` ends the processes it is sent to;
* the launched tunnel process leaves `/etc/vpn` alone.
-/

namespace PptpClient

/-! ## Filesystem -/

/-- What a path can name. -/
inductive Node where
  | file (content : String)
  | dir
  | symlink (target : String)
  deriving DecidableEq

/-- A filesystem: the table of existing absolute paths. The root `/` is
implicit. When a path occurs twice the first entry is the one seen. -/
abbrev FS := List (String × Node)

/-- The node at path `p`, if `p` exists. -/
def FS.get : FS → String → Option Node
  | [], _ => none
  | (q, n) :: rest, p => if q = p then some n else FS.get rest p

/-- Path `q` lies strictly below directory path `d`: `q` reads `d/...`. -/
def isUnder (d q : String) : Bool :=
  (d.data ++ ['/']).isPrefixOf q.data

/-- Path `q` is `p` itself or lies below it. -/
def atOrUnder (p q : String) : Bool :=
  decide (q = p) || isUnder p q

/-- The path of the directory holding `p` (`/` for a top-level name). -/
def dirname (p : String) : String :=
  match ((p.data.reverse.dropWhile (fun c => c != '/')).drop 1).reverse with
  | [] => "/"
  | cs => String.mk cs

/-- Path `p` names a directory. -/
def FS.isDir (fs : FS) (p : String) : Bool :=
  decide (p = "/") || decide (fs.get p = some Node.dir)

/-- Drop every entry for path `p`. -/
def FS.remove (fs : FS) (p : String) : FS :=
  fs.filter (fun e => decide (e.1 ≠ p))

/-- POSIX `unlink`: removes a file or a symbolic link (the link itself);
fails on a missing path and on a directory. -/
def FS.unlink (fs : FS) (p : String) : Int × FS :=
  match fs.get p with
  | some (Node.file _) => (0, fs.remove p)
  | some (Node.symlink _) => (0, fs.remove p)
  | _ => (-1, fs)

/-- POSIX `mkdir`: the path must be free and its parent a directory. -/
def FS.mkdir (fs : FS) (p : String) : Int × FS :=
  if fs.get p = none ∧ fs.isDir (dirname p) = true then (0, fs ++ [(p, Node.dir)])
  else (-1, fs)

/-- POSIX `symlink`: the link path must be free and its parent a directory;
the target is stored unresolved. -/
def FS.symlink (fs : FS) (target link : String) : Int × FS :=
  if fs.get link = none ∧ fs.isDir (dirname link) = true then
    (0, fs ++ [(link, Node.symlink target)])
  else (-1, fs)

/-- POSIX `rmdir`: removes an empty directory only. -/
def FS.rmdir (fs : FS) (p : String) : Int × FS :=
  if fs.get p = some Node.dir ∧ fs.all (fun e => !isUnder p e.1) = true then
    (0, fs.remove p)
  else (-1, fs)

/-- One operand of `rm -rf`: the path and everything below it disappear; a
missing path is not an error. -/
def FS.rm_rf (fs : FS) (p : String) : FS :=
  fs.filter (fun e => !atOrUnder p e.1)

/-- Opening a path for writing (`fopen(path, "w")`): creates an empty file
when the path is free and its parent is a directory, truncates an existing
regular file, and fails on a directory. Link resolution is not part of this
model, so a path that is itself a symbolic link cannot be opened. -/
def FS.open_w (fs : FS) (p : String) : Option FS :=
  match fs.get p with
  | none => if fs.isDir (dirname p) = true then some (fs ++ [(p, Node.file "")]) else none
  | some (Node.file _) =>
      some (fs.map (fun e => if e.1 = p then (e.1, Node.file "") else e))
  | some Node.dir => none
  | some (Node.symlink _) => none

/-- Append text to the regular file at `p`. -/
def FS.append (fs : FS) (p text : String) : FS :=
  fs.map (fun e =>
    if e.1 = p then
      match e.2 with
      | Node.file c => (e.1, Node.file (c ++ text))
      | n => (e.1, n)
    else e)

/-! ## Processes, world, call log -/

/-- The part of the system the two functions act on. -/
structure World where
  fs : FS
  procs : List (Nat × String)
  deriving DecidableEq

/-- One library call made by the code, with its arguments and, where the C
function has one, its result. A `FILE *` is represented by the path it was
opened on. -/
inductive Event where
  | pidof (name : String) (ret : Int)
  | unlink (path : String) (ret : Int)
  | mkdir (path : String) (mode : Nat) (ret : Int)
  | symlink (target link : String) (ret : Int)
  | fopen (path mode : String) (ret : Option String)
  | fprintf (fd text : String)
  | fclose (fd : String)
  | _eval (argv : List String) (ret : Int)
  | killall (name : String) (sig : Nat)
  | rmdir (path : String) (ret : Int)
  | stop_pptp_client
  deriving DecidableEq

/-- An execution in progress: the current world and the calls made so far. -/
structure Run where
  world : World
  trace : List Event
  deriving DecidableEq

/-- WAN protocol classification returned by `get_wan_proto()`. -/
inductive WanProto where
  | WP_DISABLED | WP_STATIC | WP_DHCP | WP_L2TP | WP_PPPOE | WP_PPTP | WP_OTHER
  deriving DecidableEq

/-- Everything a call of `start_pptp_client` reads from outside the modelled
world: the settings store, the WAN classification, and the outcome of the
calls that can fail for reasons the filesystem table does not show
(permissions, a read-only or full filesystem, a failing `exec`). -/
structure Env where
  /-- The settings store (`nvram`). -/
  nvram : String → Option String
  /-- Result of `get_wan_proto()`. -/
  wan_proto : WanProto
  /-- `symlink` onto this link path fails even if the table would allow it. -/
  symlink_fault : String → Bool
  /-- `fopen` of this path fails even if the table would allow it. -/
  fopen_fault : String → Bool
  /-- Status `_eval` returns for the tunnel launcher. -/
  spawn_status : Int
  /-- Pids of the tunnel processes alive when `_eval` returns from the launcher. -/
  spawn_pids : List Nat

/-- Signal number of `SIGTERM`. -/
def SIGTERM : Nat := 15

/-- The constant `BUF_SIZE`. -/
def BUF_SIZE : Nat := 128

/-! ## Settings store -/

/-- Modelled from the spec: ParameterSource `get(key) -> optional string`
(`nvram_get`, defined in the router's shared library). -/
def nvram_get (e : Env) (key : String) : Option String :=
  e.nvram key

/-- Modelled from the spec: `nvram_safe_get` is `nvram_get` with an absent
value read as the empty string. -/
def nvram_safe_get (e : Env) (key : String) : String :=
  match nvram_get e key with
  | some v => v
  | none => ""

/-- C `isspace` in the "C" locale: space, `\t`, `\n`, `\v`, `\f`, `\r`. -/
def isspace (c : Char) : Bool :=
  c = ' ' || (9 ≤ c.toNat && c.toNat ≤ 13)

/-- Decimal digits at the head of a character list, accumulated onto `acc`. -/
def atoiDigits : Nat → List Char → Nat
  | acc, [] => acc
  | acc, c :: cs =>
      if c.isDigit then atoiDigits (acc * 10 + (c.toNat - '0'.toNat)) cs else acc

/-- C `atoi`: optional white space, optional sign, decimal digits; anything
else ends the number. Out-of-range values saturate at the 32-bit limits. -/
def atoi (s : String) : Int :=
  let cs := s.data.dropWhile isspace
  let v : Int :=
    match cs with
    | '-' :: ds => - (atoiDigits 0 ds : Int)
    | '+' :: ds => (atoiDigits 0 ds : Int)
    | ds => (atoiDigits 0 ds : Int)
  max (-(2 : Int) ^ 31) (min ((2 : Int) ^ 31 - 1) v)

/-- Modelled from the spec: ParameterSource `getInt(key) -> integer` (absent
treated as 0): `nvram_get_int` is `atoi(nvram_safe_get(key))`. -/
def nvram_get_int (e : Env) (key : String) : Int :=
  atoi (nvram_safe_get e key)

/-- Result of `get_wan_proto()`. -/
def get_wan_proto (e : Env) : WanProto :=
  e.wan_proto

/-! ## Library calls

Each call takes the execution so far and returns its C result (when the
function has one) together with the execution extended by the call. -/

/-- Modelled from the spec: ProcessProbe, "find running process by name"
(`pidof`, defined in the router's shared library): the pid of a process with
that name, `-1` when there is none. -/
def pidof (name : String) (r : Run) : Int × Run :=
  let ret : Int :=
    match r.world.procs.find? (fun p => decide (p.2 = name)) with
    | some p => (p.1 : Int)
    | none => -1
  (ret, ⟨r.world, r.trace ++ [Event.pidof name ret]⟩)

/-- Modelled from the spec: "send signal to all processes matching name"
(`killall`, defined in the router's shared library). `SIGTERM` is taken to be
delivered and to end every process of that name. -/
def killall (name : String) (sig : Nat) (r : Run) : Run :=
  let procs :=
    if sig = SIGTERM then r.world.procs.filter (fun p => decide (p.2 ≠ name))
    else r.world.procs
  ⟨⟨r.world.fs, procs⟩, r.trace ++ [Event.killall name sig]⟩

/-- The call `unlink(path)`. -/
def unlink (path : String) (r : Run) : Int × Run :=
  let c := r.world.fs.unlink path
  (c.1, ⟨⟨c.2, r.world.procs⟩, r.trace ++ [Event.unlink path c.1]⟩)

/-- The call `mkdir(path, mode)`; permissions are not modelled. -/
def mkdir (path : String) (mode : Nat) (r : Run) : Int × Run :=
  let c := r.world.fs.mkdir path
  (c.1, ⟨⟨c.2, r.world.procs⟩, r.trace ++ [Event.mkdir path mode c.1]⟩)

/-- The call `symlink(target, link)`. -/
def symlink (e : Env) (target link : String) (r : Run) : Int × Run :=
  let c :=
    if e.symlink_fault link = true then (-1, r.world.fs)
    else r.world.fs.symlink target link
  (c.1, ⟨⟨c.2, r.world.procs⟩, r.trace ++ [Event.symlink target link c.1]⟩)

/-- The call `rmdir(path)`. -/
def rmdir (path : String) (r : Run) : Int × Run :=
  let c := r.world.fs.rmdir path
  (c.1, ⟨⟨c.2, r.world.procs⟩, r.trace ++ [Event.rmdir path c.1]⟩)

/-- The call `fopen(path, mode)`; `none` is the C `NULL`. Only the mode `"w"`,
the one the code uses, is modelled. -/
def fopen (e : Env) (path mode : String) (r : Run) : Option String × Run :=
  let c : Option FS :=
    if mode = "w" ∧ e.fopen_fault path = false then r.world.fs.open_w path else none
  match c with
  | some fs =>
      (some path, ⟨⟨fs, r.world.procs⟩, r.trace ++ [Event.fopen path mode (some path)]⟩)
  | none => (none, ⟨r.world, r.trace ++ [Event.fopen path mode none]⟩)

/-- One `fprintf(fd, ...)` whose formatted output is `text`. -/
def fprintf (fd text : String) (r : Run) : Run :=
  ⟨⟨r.world.fs.append fd text, r.world.procs⟩, r.trace ++ [Event.fprintf fd text]⟩

/-- A run of `fprintf` calls on the same stream, in order. -/
def fprintf_each (fd : String) : List String → Run → Run
  | [], r => r
  | t :: ts, r => fprintf_each fd ts (fprintf fd t r)

/-- The call `fclose(fd)`. -/
def fclose (fd : String) (r : Run) : Run :=
  ⟨r.world, r.trace ++ [Event.fclose fd]⟩

/-- Tokens of a character list separated by runs of spaces; `cur` is the
token being read. -/
def strtokAux : List Char → List Char → List String
  | cur, [] => if cur = [] then [] else [String.mk cur]
  | cur, c :: cs =>
      if c = ' ' then
        (if cur = [] then strtokAux [] cs else String.mk cur :: strtokAux [] cs)
      else strtokAux (cur ++ [c]) cs

/-- The loop
`for (argv[argc=0] = strtok(buffer, " "); argv[argc] != NULL; argv[++argc] = strtok(NULL, " "));`
the entries of `argv` before the terminating `NULL`. -/
def strtok_all (buffer : String) : List String :=
  strtokAux [] buffer.data

/-- Last component of a path: the name a process started from it runs under. -/
def basename (p : String) : String :=
  String.mk (p.data.reverse.takeWhile (fun c => c != '/')).reverse

/-- Modelled from the spec: Subprocess collaborator `spawn(path, args[])`
(`_eval(argv, NULL, 0, NULL)`, defined in the router's shared library), which
runs the command and returns its status. `rm -rf p1 .. pn` removes the
operands and returns 0. Any other command is the tunnel launcher: its status
and the processes it leaves behind come from the environment. -/
def _eval (e : Env) (argv : List String) (r : Run) : Int × Run :=
  if argv.take 2 = ["rm", "-rf"] then
    (0, ⟨⟨(argv.drop 2).foldl FS.rm_rf r.world.fs, r.world.procs⟩,
         r.trace ++ [Event._eval argv 0]⟩)
  else
    match argv with
    | [] => (-1, ⟨r.world, r.trace ++ [Event._eval argv (-1)]⟩)
    | cmd :: _ =>
        (e.spawn_status,
         ⟨⟨r.world.fs, r.world.procs ++ e.spawn_pids.map (fun pid => (pid, basename cmd))⟩,
          r.trace ++ [Event._eval argv e.spawn_status]⟩)

/-! ## The two functions -/

/-- The function `stop_pptp_client`. Its entry is logged, so that the call
log shows where Teardown starts. -/
def stop_pptp_client (e : Env) (r : Run) : Run :=
  let r : Run := ⟨r.world, r.trace ++ [Event.stop_pptp_client]⟩
  let r := killall "pptpclient" SIGTERM r
  let buffer :=
    "rm -rf /etc/vpn/pptpclient /etc/vpn/ip-down /etc/vpn/ip-up /etc/vpn/options.vpn"
  let argv := strtok_all buffer
  let r := (_eval e argv r).2
  (rmdir "/etc/vpn" r).2

/-- The statements between `fopen` and `fclose` in `start_pptp_client`: the
final value of `ok` and, statement by statement, the text each `fprintf`
sends to the stream. -/
def write_options (e : Env) : Int × List String :=
  let ok : Int := 1
  let o1 := ["lock\n" ++ "noauth\n" ++ "refuse-eap\n" ++ "lcp-echo-failure 3\n" ++
    "lcp-echo-interval 2\n" ++ "maxfail 0\n" ++ "persist\n" ++ "plugin pptp.so\n" ++
    "pptp_server " ++ nvram_safe_get e "pptp_client_srvip" ++ "\n"]
  -- Accept default route
  let o2 := if nvram_get_int e "pptp_client_dfltroute" ≠ 0 then ["defaultroute\n"] else []
  let i := nvram_get_int e "pptp_client_peerdns" -- -1 or 0: enable, 1 disable
  let o3 := if i ≠ 1 then ["usepeerdns\n"] else []
  let o4 := ["idle 0\n" ++ "ip-up-script /etc/vpn/ip-up\n" ++
    "ip-down-script /etc/vpn/ip-down\n" ++ "ipparam kelokepptpd\n"]
  let p : String := match nvram_get e "pptp_client_mtu" with
    | none => "1450"
    | some v => v
  let p : String := if nvram_get_int e "pptp_client_mtuenable" = 0 then "1450" else p
  let o5 := ["mtu " ++ p ++ "\n"]
  let o6 :=
    if nvram_get_int e "pptp_client_mruenable" = 0 then
      let p : String := match nvram_get e "pptp_client_mru" with
        | none => "1450"
        | some v => v
      ["mru " ++ p ++ "\n"]
    else []
  let c7 : Int × List String := match nvram_get e "pptp_client_username" with
    | none => (0, [])
    | some p => (ok, ["name " ++ p ++ "\n"])
  let ok := c7.1
  let c8 : Int × List String := match nvram_get e "pptp_client_passwd" with
    | none => (0, [])
    | some p => (ok, ["password " ++ p ++ "\n"])
  let ok := c8.1
  let p : String := match get_wan_proto e with
    | WanProto.WP_PPPOE => "1"
    | WanProto.WP_PPTP => "1"
    | WanProto.WP_L2TP => "1"
    | _ => "0"
  let o9 : List String :=
    if nvram_get_int e "pptp_client_crypt" = 1 then ["nomppe\n"]
    else if nvram_get_int e "pptp_client_crypt" = 2 then ["nomppe-40\n", "require-mppe-128\n"]
    else if nvram_get_int e "pptp_client_crypt" = 3 then ["require-mppe\n"]
    else []
  let o10 :=
    if nvram_get_int e "pptp_client_stateless" = 0 then ["mppe-stateful\n"]
    else ["nomppe-stateful\n"]
  let o11 := ["unit " ++ p ++ "\n"]
  let o12 := [nvram_safe_get e "pptp_client_custom" ++ "\n"]
  (ok, o1 ++ o2 ++ o3 ++ o4 ++ o5 ++ o6 ++ c7.2 ++ c8.2 ++ o9 ++ o10 ++ o11 ++ o12)

/-- The function `start_pptp_client`. -/
def start_pptp_client (e : Env) (r : Run) : Run :=
  let ok : Int := 0
  let buffer := "pptpclient"
  let c := pidof buffer r
  if c.1 ≥ 0 then
    -- PPTP already running
    c.2
  else
    let r := c.2
    let r := (unlink "/etc/vpn/ip-down" r).2
    let r := (unlink "/etc/vpn/ip-up" r).2
    let r := (unlink "/etc/vpn/ip-vpn" r).2
    let r := (unlink "/etc/vpn/options.vpn" r).2
    let r := (unlink "/etc/vpn" r).2
    let r := (mkdir "/etc/vpn" 0o700 r).2
    let c := symlink e "/rom/etc/vpn/ip-down" "/etc/vpn/ip-down" r
    let ok := Int.lor ok c.1
    let c := symlink e "/rom/etc/vpn/ip-up" "/etc/vpn/ip-up" c.2
    let ok := Int.lor ok c.1
    -- Make sure symbolic link exists
    let buffer := "/etc/vpn/pptpclient"
    let r := (unlink buffer c.2).2
    let c := symlink e "/usr/sbin/pppd" buffer r
    let ok := Int.lor ok c.1
    let r := c.2
    if ok ≠ 0 then
      stop_pptp_client e r
    else
      let c := fopen e "/etc/vpn/options.vpn" "w" r
      let d : Int × Run :=
        match c.1 with
        | some fd =>
            let w := write_options e
            (w.1, fclose fd (fprintf_each fd w.2 c.2))
        | none => (ok, c.2)
      let ok := d.1
      let r := d.2
      if ok ≠ 0 then
        let buffer := "/etc/vpn/pptpclient file /etc/vpn/options.vpn"
        let argv := strtok_all buffer
        let c := _eval e argv r
        if c.1 ≠ 0 then
          stop_pptp_client e c.2
        else c.2
      else
        stop_pptp_client e r

/-! ## Auxiliary definitions used in the statements and proofs -/

/-- The argument vector of the launcher. -/
def launch_argv : List String :=
  ["/etc/vpn/pptpclient", "file", "/etc/vpn/options.vpn"]

/-- A failure occurred in a run of `start_pptp_client` with call log `t`: a
`symlink` call returned non-zero, an `fopen` returned `NULL`, the username or
the password is absent, or the launcher returned non-zero. -/
def StartFailed (e : Env) (t : List Event) : Prop :=
  (∃ tg l ret, Event.symlink tg l ret ∈ t ∧ ret ≠ 0) ∨
  (∃ p m, Event.fopen p m none ∈ t) ∨
  nvram_get e "pptp_client_username" = none ∨
  nvram_get e "pptp_client_passwd" = none ∨
  (∃ ret, Event._eval launch_argv ret ∈ t ∧ ret ≠ 0)

/-- The statements of `start_pptp_client` from the first `unlink` up to the
third `symlink`: the value of `ok` and the execution reached. -/
def start_wire (e : Env) (r : Run) : Int × Run :=
  let ok : Int := 0
  let r := (unlink "/etc/vpn/ip-down" r).2
  let r := (unlink "/etc/vpn/ip-up" r).2
  let r := (unlink "/etc/vpn/ip-vpn" r).2
  let r := (unlink "/etc/vpn/options.vpn" r).2
  let r := (unlink "/etc/vpn" r).2
  let r := (mkdir "/etc/vpn" 0o700 r).2
  let c := symlink e "/rom/etc/vpn/ip-down" "/etc/vpn/ip-down" r
  let ok := Int.lor ok c.1
  let c := symlink e "/rom/etc/vpn/ip-up" "/etc/vpn/ip-up" c.2
  let ok := Int.lor ok c.1
  let buffer := "/etc/vpn/pptpclient"
  let r := (unlink buffer c.2).2
  let c := symlink e "/usr/sbin/pppd" buffer r
  let ok := Int.lor ok c.1
  (ok, c.2)

/-- The statements of `start_pptp_client` from `fopen` to `fclose`, entered
with the given value of `ok`. -/
def start_config (e : Env) (ok : Int) (r : Run) : Int × Run :=
  let c := fopen e "/etc/vpn/options.vpn" "w" r
  match c.1 with
  | some fd =>
      let w := write_options e
      (w.1, fclose fd (fprintf_each fd w.2 c.2))
  | none => (ok, c.2)

/-- The statements of `start_pptp_client` after `fclose`. -/
def start_launch (e : Env) (ok : Int) (r : Run) : Run :=
  if ok ≠ 0 then
    let c := _eval e (strtok_all "/etc/vpn/pptpclient file /etc/vpn/options.vpn") r
    if c.1 ≠ 0 then stop_pptp_client e c.2 else c.2
  else stop_pptp_client e r

/-- The four paths `stop_pptp_client` hands to `rm -rf`. -/
def stop_paths : List String :=
  ["/etc/vpn/pptpclient", "/etc/vpn/ip-down", "/etc/vpn/ip-up", "/etc/vpn/options.vpn"]

/-- Path `p` does not exist in `fs`: the table has no entry at `p` and none
below it. -/
def FS.absent (fs : FS) (p : String) : Prop :=
  ∀ x ∈ fs, atOrUnder p x.1 = false

/-- What `rm -rf` of the four paths leaves of a table. -/
def FS.rm_stop_paths (fs : FS) : FS :=
  fs.filter (fun x => stop_paths.all (fun p => !atOrUnder p x.1))

/-- The execution of `start_pptp_client` from world `w` after the third `symlink`. -/
def start_pre (e : Env) (w : World) : Run :=
  (start_wire e (pidof "pptpclient" ⟨w, []⟩).2).2

/-- The execution after the `fopen` ... `fclose` block, entered with `ok = 0`. -/
def start_cfg (e : Env) (w : World) : Run :=
  (start_config e 0 (start_pre e w)).2

/-- The call of the launcher made after the block. -/
def start_ev (e : Env) (w : World) : Int × Run :=
  _eval e launch_argv (start_cfg e w)

/-- The calls made by `start_pptp_client` up to the third `symlink`, given
their results. -/
def wire_events (p u1 u2 u3 u4 u5 m s1 s2 u6 s3 : Int) : List Event :=
  [Event.pidof "pptpclient" p, Event.unlink "/etc/vpn/ip-down" u1,
   Event.unlink "/etc/vpn/ip-up" u2, Event.unlink "/etc/vpn/ip-vpn" u3,
   Event.unlink "/etc/vpn/options.vpn" u4, Event.unlink "/etc/vpn" u5,
   Event.mkdir "/etc/vpn" 0o700 m,
   Event.symlink "/rom/etc/vpn/ip-down" "/etc/vpn/ip-down" s1,
   Event.symlink "/rom/etc/vpn/ip-up" "/etc/vpn/ip-up" s2,
   Event.unlink "/etc/vpn/pptpclient" u6,
   Event.symlink "/usr/sbin/pppd" "/etc/vpn/pptpclient" s3]

/-- The calls of the `fopen` ... `fclose` block when the file opens. -/
def config_events (e : Env) : List Event :=
  Event.fopen "/etc/vpn/options.vpn" "w" (some "/etc/vpn/options.vpn") ::
    ((write_options e).2.map (Event.fprintf "/etc/vpn/options.vpn") ++
      [Event.fclose "/etc/vpn/options.vpn"])

/-- The calls made by one execution of `stop_pptp_client`, given the results
of `_eval` and `rmdir`. -/
def stop_events (a b : Int) : List Event :=
  [Event.stop_pptp_client, Event.killall "pptpclient" SIGTERM,
   Event._eval ["rm", "-rf", "/etc/vpn/pptpclient", "/etc/vpn/ip-down", "/etc/vpn/ip-up",
     "/etc/vpn/options.vpn"] a,
   Event.rmdir "/etc/vpn" b]

/-- Entry `x` fits a working directory that holds nothing but what
`stop_pptp_client` removes: at `/etc/vpn` it is a directory, and below
`/etc/vpn` it lies at or below one of the four paths. -/
def tidyEntry (x : String × Node) : Bool :=
  (decide (x.1 ≠ "/etc/vpn") || decide (x.2 = Node.dir)) &&
  (!isUnder "/etc/vpn" x.1 || stop_paths.any (fun p => atOrUnder p x.1))

/-- The table holds `/etc/vpn` only as a directory, if at all, and nothing
below it besides the four paths `stop_pptp_client` removes. -/
def FS.tidy (fs : FS) : Bool :=
  fs.all tidyEntry

/-- Every entry of the table of `r` satisfies `Q`. -/
def Run.fsAll (Q : String × Node → Prop) (r : Run) : Prop :=
  ∀ x ∈ r.world.fs, Q x

/-- One call of either function, with the environment it runs in. -/
inductive Call where
  | start (e : Env)
  | stop (e : Env)

/-- Run one call. -/
def Call.run : Call → Run → Run
  | Call.start e, r => start_pptp_client e r
  | Call.stop e, r => stop_pptp_client e r

/-- Run a sequence of calls, first to last. -/
def run_calls (cs : List Call) (r : Run) : Run :=
  cs.foldl (fun r c => c.run r) r

/-- The table of `r` is tidy. -/
abbrev Run.tidy (r : Run) : Prop :=
  r.fsAll (fun x => tidyEntry x = true)

/-! ## Concrete systems and environments -/

/-- A settings store with every parameter the code reads for a plain
connection. -/
def nvram_full (key : String) : Option String :=
  if key = "pptp_client_srvip" then some "10.0.0.1"
  else if key = "pptp_client_username" then some "alice"
  else if key = "pptp_client_passwd" then some "secret"
  else if key = "pptp_client_mru" then some "1400"
  else if key = "pptp_client_crypt" then some "1"
  else none

/-- The same store without a username. -/
def nvram_nouser (key : String) : Option String :=
  if key = "pptp_client_username" then none else nvram_full key

/-- All parameters present, no call fails, the launcher leaves process 412. -/
def env_ok : Env :=
  ⟨nvram_full, WanProto.WP_DHCP, fun _ => false, fun _ => false, 0, [412]⟩

/-- As `env_ok`, with the username missing. -/
def env_nouser : Env :=
  ⟨nvram_nouser, WanProto.WP_DHCP, fun _ => false, fun _ => false, 0, [412]⟩

/-- As `env_ok`, with the second `symlink` refused. -/
def env_symfail : Env :=
  ⟨nvram_full, WanProto.WP_DHCP, fun l => decide (l = "/etc/vpn/ip-up"), fun _ => false, 0, [412]⟩

/-- As `env_ok`, with the launcher exiting with status 1 and leaving nothing. -/
def env_spawnfail : Env :=
  ⟨nvram_full, WanProto.WP_DHCP, fun _ => false, fun _ => false, 1, []⟩

/-- A system with `/etc` only and no tunnel. -/
def w_idle : World :=
  ⟨[("/etc", Node.dir)], []⟩

/-- A system whose working directory holds a file the code knows nothing of. -/
def w_foreign : World :=
  ⟨[("/etc", Node.dir), ("/etc/vpn", Node.dir), ("/etc/vpn/notes", Node.file "keep")], []⟩

/-- A system in which the tunnel runs as process 412. -/
def w_running : World :=
  ⟨[("/etc", Node.dir), ("/etc/vpn", Node.dir),
    ("/etc/vpn/pptpclient", Node.symlink "/usr/sbin/pppd")], [(412, "pptpclient")]⟩

/-- The value `start_pptp_client` hands back to its caller. The C function is
declared `void start_pptp_client(void)`: whatever happened, the caller
receives the one value of `Unit`. -/
def start_pptp_client_ret (_e : Env) (_r : Run) : Unit :=
  ()

/-! ## The configuration text -/

/-- The lines of a text: the segments ended by a newline, and a last
unended segment if there is one. -/
def linesOf : List Char → List (List Char)
  | [] => []
  | c :: cs =>
      if c = '\n' then [] :: linesOf cs
      else
        match linesOf cs with
        | [] => [[c]]
        | l :: ls => (c :: l) :: ls

/-- The lines of a string. -/
def lines (s : String) : List String :=
  (linesOf s.data).map String.mk

/-- Line `l` starts with `k`: with `k = "mtu "`, `l` has the form `mtu V`. -/
def hasKey (k l : String) : Bool :=
  k.data.isPrefixOf l.data

/-- The text sent to stream `fd` by the `fprintf` calls of a call log, in order. -/
def written (fd : String) : List Event → String
  | [] => ""
  | Event.fprintf fd1 t :: rest => if fd1 = fd then t ++ written fd rest else written fd rest
  | _ :: rest => written fd rest

/-- The text `start_pptp_client` writes when it opens the configuration file:
its `fprintf` outputs one after the other. -/
def options_text (e : Env) : String :=
  (write_options e).2.foldr (fun a b => a ++ b) ""

/-- The value on the `mtu` line: the final value of `p` at the `mtu` statement. -/
def mtu_value (e : Env) : String :=
  if nvram_get_int e "pptp_client_mtuenable" = 0 then "1450"
  else
    match nvram_get e "pptp_client_mtu" with
    | none => "1450"
    | some v => v

/-- The value on the `mru` line, when that line is written. -/
def mru_value (e : Env) : String :=
  match nvram_get e "pptp_client_mru" with
  | none => "1450"
  | some v => v

/-- The value on the `unit` line. -/
def unit_value (e : Env) : String :=
  match get_wan_proto e with
  | WanProto.WP_PPPOE => "1"
  | WanProto.WP_PPTP => "1"
  | WanProto.WP_L2TP => "1"
  | _ => "0"

/-- The lines of the `name` statement: none when the username is absent. -/
def name_lines (e : Env) : List String :=
  match nvram_get e "pptp_client_username" with
  | none => []
  | some u => lines ("name " ++ u ++ "\n")

/-- The lines of the `password` statement: none when the password is absent. -/
def password_lines (e : Env) : List String :=
  match nvram_get e "pptp_client_passwd" with
  | none => []
  | some p => lines ("password " ++ p ++ "\n")

/-- The lines of the configuration text, statement by statement. -/
def option_lines (e : Env) : List String :=
  ["lock", "noauth", "refuse-eap", "lcp-echo-failure 3", "lcp-echo-interval 2", "maxfail 0",
    "persist", "plugin pptp.so"] ++
  lines ("pptp_server " ++ nvram_safe_get e "pptp_client_srvip" ++ "\n") ++
  (if nvram_get_int e "pptp_client_dfltroute" ≠ 0 then ["defaultroute"] else []) ++
  (if nvram_get_int e "pptp_client_peerdns" ≠ 1 then ["usepeerdns"] else []) ++
  ["idle 0", "ip-up-script /etc/vpn/ip-up", "ip-down-script /etc/vpn/ip-down",
    "ipparam kelokepptpd"] ++
  lines ("mtu " ++ mtu_value e ++ "\n") ++
  (if nvram_get_int e "pptp_client_mruenable" = 0 then lines ("mru " ++ mru_value e ++ "\n")
    else []) ++
  name_lines e ++
  password_lines e ++
  (if nvram_get_int e "pptp_client_crypt" = 1 then ["nomppe"]
    else if nvram_get_int e "pptp_client_crypt" = 2 then ["nomppe-40", "require-mppe-128"]
    else if nvram_get_int e "pptp_client_crypt" = 3 then ["require-mppe"]
    else []) ++
  (if nvram_get_int e "pptp_client_stateless" = 0 then ["mppe-stateful"]
    else ["nomppe-stateful"]) ++
  ["unit " ++ unit_value e] ++
  lines (nvram_safe_get e "pptp_client_custom" ++ "\n")

/-- The lines of the text that no setting's value enters, `defaultroute` apart. -/
def fixed_option_lines : List String :=
  ["lock", "noauth", "refuse-eap", "lcp-echo-failure 3", "lcp-echo-interval 2", "maxfail 0",
    "persist", "plugin pptp.so", "usepeerdns", "idle 0", "ip-up-script /etc/vpn/ip-up",
    "ip-down-script /etc/vpn/ip-down", "ipparam kelokepptpd", "nomppe", "nomppe-40",
    "require-mppe-128", "require-mppe", "mppe-stateful", "nomppe-stateful", "unit 0", "unit 1"]

/-- The settings whose values reach the text besides the MTU override. -/
def mtu_other_keys : List String :=
  ["pptp_client_srvip", "pptp_client_mru", "pptp_client_username", "pptp_client_passwd",
    "pptp_client_custom"]

/-- The settings whose values reach the text besides the MRU override. -/
def mru_other_keys : List String :=
  ["pptp_client_srvip", "pptp_client_mtu", "pptp_client_username", "pptp_client_passwd",
    "pptp_client_custom"]

/-- The store of `nvram_full` with the custom options `mtu 1400`. -/
def nvram_custom_mtu (key : String) : Option String :=
  if key = "pptp_client_custom" then some "mtu 1400" else nvram_full key

/-- As `env_ok`, with the custom options `mtu 1400`. -/
def env_custom_mtu : Env :=
  ⟨nvram_custom_mtu, WanProto.WP_DHCP, fun _ => false, fun _ => false, 0, [412]⟩

/-- The store of `nvram_full` with the MRU-enable flag set and the custom
options `mru 1400`. -/
def nvram_custom_mru (key : String) : Option String :=
  if key = "pptp_client_custom" then some "mru 1400"
  else if key = "pptp_client_mruenable" then some "1"
  else nvram_full key

/-- As `env_ok`, with the MRU-enable flag set and the custom options `mru 1400`. -/
def env_custom_mru : Env :=
  ⟨nvram_custom_mru, WanProto.WP_DHCP, fun _ => false, fun _ => false, 0, [412]⟩

/-- The store of `nvram_full` with MTU and MRU overrides in use. -/
def nvram_sized (key : String) : Option String :=
  if key = "pptp_client_mtuenable" then some "1"
  else if key = "pptp_client_mtu" then some "1380"
  else nvram_full key

/-- As `env_ok`, with the MTU override 1380 enabled. -/
def env_sized : Env :=
  ⟨nvram_sized, WanProto.WP_DHCP, fun _ => false, fun _ => false, 0, [412]⟩

/-- The settings of free text: server address, credentials, custom options. -/
def free_text_keys : List String :=
  ["pptp_client_srvip", "pptp_client_username", "pptp_client_passwd", "pptp_client_custom"]

/-- The outputs of the `fprintf` calls on stream `fd` in a call log, in order:
one entry for each call. -/
def emitted (fd : String) : List Event → List String
  | [] => []
  | Event.fprintf fd1 t :: rest => if fd1 = fd then t :: emitted fd rest else emitted fd rest
  | _ :: rest => emitted fd rest

/-- The output of the first `fprintf`: the nine opening lines, the last one
carrying the server address `S`. -/
def header_piece (S : String) : String :=
  "lock\nnoauth\nrefuse-eap\nlcp-echo-failure 3\nlcp-echo-interval 2\nmaxfail 0\npersist\nplugin pptp.so\npptp_server " ++ S ++ "\n"

/-- The output of the `name` statement: none when the username is absent. -/
def name_piece (e : Env) : List String :=
  match nvram_get e "pptp_client_username" with
  | none => []
  | some u => ["name " ++ u ++ "\n"]

/-- The output of the `password` statement: none when the password is absent. -/
def password_piece (e : Env) : List String :=
  match nvram_get e "pptp_client_passwd" with
  | none => []
  | some p => ["password " ++ p ++ "\n"]

/-- The outputs of the `fprintf` calls in front of the last one, which copies
the custom options. -/
def directive_pieces (e : Env) : List String :=
  [header_piece (nvram_safe_get e "pptp_client_srvip")] ++
  (if nvram_get_int e "pptp_client_dfltroute" ≠ 0 then ["defaultroute\n"] else []) ++
  (if nvram_get_int e "pptp_client_peerdns" ≠ 1 then ["usepeerdns\n"] else []) ++
  ["idle 0\nip-up-script /etc/vpn/ip-up\nip-down-script /etc/vpn/ip-down\nipparam kelokepptpd\n"] ++
  ["mtu " ++ mtu_value e ++ "\n"] ++
  (if nvram_get_int e "pptp_client_mruenable" = 0 then ["mru " ++ mru_value e ++ "\n"]
    else []) ++
  name_piece e ++
  password_piece e ++
  (if nvram_get_int e "pptp_client_crypt" = 1 then ["nomppe\n"]
    else if nvram_get_int e "pptp_client_crypt" = 2 then ["nomppe-40\n", "require-mppe-128\n"]
    else if nvram_get_int e "pptp_client_crypt" = 3 then ["require-mppe\n"]
    else []) ++
  (if nvram_get_int e "pptp_client_stateless" = 0 then ["mppe-stateful\n"]
    else ["nomppe-stateful\n"]) ++
  ["unit " ++ unit_value e ++ "\n"]

/-- The keys in front of the values that enter the outputs. -/
def value_keys : List String :=
  ["lock", "mtu ", "mru ", "name ", "password "]

/-- The texts of the four encryption directives. -/
def encryption_directives : List String :=
  ["nomppe\n", "nomppe-40\n", "require-mppe-128\n", "require-mppe\n"]

/-- The store of `nvram_full` with the default route requested and encryption
mode 2. -/
def nvram_routed (key : String) : Option String :=
  if key = "pptp_client_dfltroute" then some "1"
  else if key = "pptp_client_crypt" then some "2"
  else if key = "pptp_client_stateless" then some "1"
  else if key = "pptp_client_custom" then some "debug"
  else nvram_full key

/-- As `env_ok`, with the default route requested, encryption mode 2,
stateless encryption and the custom options `debug`. -/
def env_routed : Env :=
  ⟨nvram_routed, WanProto.WP_PPPOE, fun _ => false, fun _ => false, 0, [412]⟩



/-- The store of `nvram_full` with a server address of two lines. -/
def nvram_srv_newline (key : String) : Option String :=
  if key = "pptp_client_srvip" then some "vpn.example.net\ndebug" else nvram_full key

/-- As `env_ok`, with a server address of two lines. -/
def env_srv_newline : Env :=
  ⟨nvram_srv_newline, WanProto.WP_DHCP, fun _ => false, fun _ => false, 0, [412]⟩

/-- The command line `start_pptp_client` prints into `buffer` for the launcher. -/
def start_command : String :=
  "/etc/vpn/pptpclient file /etc/vpn/options.vpn"

/-- The command line `stop_pptp_client` prints into `buffer`. -/
def stop_command : String :=
  "rm -rf /etc/vpn/pptpclient /etc/vpn/ip-down /etc/vpn/ip-up /etc/vpn/options.vpn"

/-- The argument vector `stop_pptp_client` passes to `_eval`. -/
def stop_argv : List String :=
  ["rm", "-rf", "/etc/vpn/pptpclient", "/etc/vpn/ip-down", "/etc/vpn/ip-up",
    "/etc/vpn/options.vpn"]

/-- Number of slots of `argv` in `start_pptp_client` (`char *argv[5]`). -/
def start_argv_slots : Nat := 5

/-- Number of slots of `argv` in `stop_pptp_client` (`char *argv[7]`). -/
def stop_argv_slots : Nat := 7

/-- The stores the loop
`for (argv[argc=0] = strtok(buffer, " "); argv[argc] != NULL; argv[++argc] = strtok(NULL, " "));`
makes into `argv`, as pairs of index and value: one for each token, then the
`NULL` (`none`) that ends the loop. -/
def argv_stores (buffer : String) : List (Nat × Option String) :=
  (List.range (strtok_all buffer).length).zip ((strtok_all buffer).map some) ++
    [((strtok_all buffer).length, none)]

/-- Bytes `sprintf(buffer, s)` writes for a format without conversions: the
text and the terminating NUL. -/
def sprintf_bytes (s : String) : Nat :=
  s.utf8ByteSize + 1

/-- The store of `nvram_full` with a custom options string. -/
def nvram_custom_debug (key : String) : Option String :=
  if key = "pptp_client_custom" then some "debug dump" else nvram_full key

/-- As `env_ok`, with a custom options string. -/
def env_custom_debug : Env :=
  ⟨nvram_custom_debug, WanProto.WP_DHCP, fun _ => false, fun _ => false, 0, [412]⟩

/-- The call is a spawn of the binary alias `/etc/vpn/pptpclient`, whatever
the other arguments. -/
def spawns_alias : Event → Bool
  | Event._eval argv _ => decide (argv.head? = some "/etc/vpn/pptpclient")
  | _ => false

/-- The four encryption directives, as lines of the configuration. -/
def encryption_lines : List String :=
  ["nomppe", "nomppe-40", "require-mppe-128", "require-mppe"]

/-- Line `l` is one of the four encryption directives. -/
def is_encryption_line (l : String) : Bool :=
  encryption_lines.contains l

/-- The settings whose stored values are copied into the text ahead of the
custom line: server address, MTU and MRU overrides, user name, password. -/
def stored_value_keys : List String :=
  ["pptp_client_srvip", "pptp_client_mtu", "pptp_client_mru", "pptp_client_username",
    "pptp_client_passwd"]

/-- A store with no encryption mode and no custom options, and a user name of
two lines, the second being `require-mppe`. -/
def nvram_user_newline (key : String) : Option String :=
  if key = "pptp_client_srvip" then some "10.0.0.1"
  else if key = "pptp_client_username" then some "alice\nrequire-mppe"
  else if key = "pptp_client_passwd" then some "secret"
  else none

/-- As `env_ok`, with the store `nvram_user_newline`. -/
def env_user_newline : Env :=
  ⟨nvram_user_newline, WanProto.WP_DHCP, fun _ => false, fun _ => false, 0, [412]⟩

end PptpClient

/-! Recent match options (`iptables/extensions/libip6t_recent.c`)

A shallow embedding of `init`, `parse`, `final_check` and `save` of the
`recent` match extension of ip6tables.

What the model takes for granted:

* the match record is `struct xt_recent_mtinfo` of the kernel header
  `linux/netfilter/xt_recent.h`; the 8-bit and 32-bit fields are natural
  numbers, `name` is the text of the array before its first NUL, one
  character per byte;
* `exit_error` does not return: a call of it ends the run with a failure;
* `optarg` is the argument `getopt_long` left for the option, absent for an
  option declared without one.
-/

namespace Recent

/-- Modelled from the spec: the command bits SET, CHECK, UPDATE, REMOVE of
`check_set` (the header `linux/netfilter/xt_recent.h` that declares them is not
among the sources): `XT_RECENT_CHECK = 1 << 0`. -/
def XT_RECENT_CHECK : Nat := 1

/-- Modelled from the spec: command bit SET, `XT_RECENT_SET = 1 << 1` in the
kernel header. -/
def XT_RECENT_SET : Nat := 2

/-- Modelled from the spec: command bit UPDATE, `XT_RECENT_UPDATE = 1 << 2` in
the kernel header. -/
def XT_RECENT_UPDATE : Nat := 4

/-- Modelled from the spec: command bit REMOVE, `XT_RECENT_REMOVE = 1 << 3` in
the kernel header. -/
def XT_RECENT_REMOVE : Nat := 8

/-- Modelled from the spec: the bit of `check_set` next to the command bits,
`XT_RECENT_TTL = 1 << 4` in the kernel header. -/
def XT_RECENT_TTL : Nat := 16

/-- Modelled from the spec: value of `side`, `XT_RECENT_SOURCE = 0` in the
kernel header. -/
def XT_RECENT_SOURCE : Nat := 0

/-- Modelled from the spec: value of `side`, `XT_RECENT_DEST = 1` in the kernel
header. -/
def XT_RECENT_DEST : Nat := 1

/-- Modelled from the spec: size of the `name` array, `XT_RECENT_NAME_LEN = 200`
in the kernel header (the comment in `init` says so too). -/
def XT_RECENT_NAME_LEN : Nat := 200

/-- Modelled from the spec: the match record, `struct xt_recent_mtinfo` of the
kernel header: `__u32 seconds, hit_count; __u8 check_set, invert;
char name[XT_RECENT_NAME_LEN]; __u8 side`. -/
structure xt_recent_mtinfo where
  seconds : Nat
  hit_count : Nat
  check_set : Nat
  invert : Nat
  name : String
  side : Nat
  deriving DecidableEq

/-- The zero-initialised record. -/
def zero_info : xt_recent_mtinfo :=
  ⟨0, 0, 0, 0, "", 0⟩

/-- How a run ends when it does not return: `exit_error(PARAMETER_PROBLEM, msg)`,
or a read through a null `optarg`. -/
inductive Failure where
  | PARAMETER_PROBLEM (msg : String)
  | null_optarg
  deriving DecidableEq

deriving instance DecidableEq for Except

/-- The two statements `strncpy(info->name, src, XT_RECENT_NAME_LEN);
info->name[XT_RECENT_NAME_LEN-1] = 0`: the name becomes the first
`XT_RECENT_NAME_LEN - 1` characters of `src`. -/
def strncpy_name (src : String) : String :=
  String.mk (src.data.take (XT_RECENT_NAME_LEN - 1))

/-- Conversion of the `int` result of `atoi` to a `__u32` field. -/
def to_u32 (v : Int) : Nat :=
  (v % 4294967296).toNat

/-- Initialize the match. -/
def init (info : xt_recent_mtinfo) : xt_recent_mtinfo :=
  { info with name := strncpy_name "DEFAULT", side := XT_RECENT_SOURCE }

/-- Modelled from the spec: `check_inverse(optarg, &invert, &optind, 0)` of
ip6tables (not among the sources): when the argument is `!` the inversion flag
is raised, and a second inversion is a parameter problem. The result is the
new value of `invert`. -/
def check_inverse (optarg : Option String) (invert : Bool) : Except Failure Bool :=
  if optarg = some "!" then
    (if invert then Except.error (Failure.PARAMETER_PROBLEM "Multiple `!' flags not allowed")
      else Except.ok true)
  else Except.ok invert

/-- The body shared by the cases 201, 202, 203 and 206 of `parse`, which
differ in the bit they set. -/
def parse_command (bit : Nat) (optarg : Option String) (invert : Bool) (flags : Nat)
    (info : xt_recent_mtinfo) : Except Failure (Int × Nat × xt_recent_mtinfo) :=
  if flags ≠ 0 then
    Except.error (Failure.PARAMETER_PROBLEM
      "recent: only one of `--set', `--rcheck' `--update' or `--remove' may be set")
  else
    match check_inverse optarg invert with
    | Except.error f => Except.error f
    | Except.ok inv =>
        Except.ok (1, 1,
          { info with
            check_set := info.check_set ||| bit,
            invert := if inv then 1 else info.invert })

/-- Function which parses command options; returns true if it ate an option.
The result is the return value, the new `*flags` and the new record. -/
def parse (c : Int) (optarg : Option String) (invert : Bool) (flags : Nat)
    (info : xt_recent_mtinfo) : Except Failure (Int × Nat × xt_recent_mtinfo) :=
  if c = 201 then parse_command XT_RECENT_SET optarg invert flags info
  else if c = 202 then parse_command XT_RECENT_CHECK optarg invert flags info
  else if c = 203 then parse_command XT_RECENT_UPDATE optarg invert flags info
  else if c = 206 then parse_command XT_RECENT_REMOVE optarg invert flags info
  else if c = 204 then
    match optarg with
    | none => Except.error Failure.null_optarg
    | some a => Except.ok (1, flags, { info with seconds := to_u32 (PptpClient.atoi a) })
  else if c = 205 then
    match optarg with
    | none => Except.error Failure.null_optarg
    | some a => Except.ok (1, flags, { info with hit_count := to_u32 (PptpClient.atoi a) })
  else if c = 207 then
    Except.ok (1, flags, { info with check_set := info.check_set ||| XT_RECENT_TTL })
  else if c = 208 then
    match optarg with
    | none => Except.error Failure.null_optarg
    | some a => Except.ok (1, flags, { info with name := strncpy_name a })
  else if c = 209 then Except.ok (1, flags, { info with side := XT_RECENT_SOURCE })
  else if c = 210 then Except.ok (1, flags, { info with side := XT_RECENT_DEST })
  else Except.ok (0, flags, info)

/-- Final check; must have specified a specific option. -/
def final_check (flags : Nat) : Except Failure Unit :=
  if flags = 0 then
    Except.error (Failure.PARAMETER_PROBLEM
      "recent: you must specify one of `--set', `--rcheck' `--update' or `--remove'")
  else Except.ok ()

/-- Output of `printf("%d", v)` for a `__u32` field: the value read as a
32-bit signed integer, in decimal. -/
def print_d (v : Nat) : String :=
  if v < 2147483648 then toString v else "-" ++ toString (4294967296 - v)

/-- Saves the match record in parsable form: the text printed to stdout. -/
def save (info : xt_recent_mtinfo) : String :=
  (if info.invert ≠ 0 then "! " else "") ++
  (if info.check_set &&& XT_RECENT_SET ≠ 0 then "--set " else "") ++
  (if info.check_set &&& XT_RECENT_CHECK ≠ 0 then "--rcheck " else "") ++
  (if info.check_set &&& XT_RECENT_UPDATE ≠ 0 then "--update " else "") ++
  (if info.check_set &&& XT_RECENT_REMOVE ≠ 0 then "--remove " else "") ++
  (if info.seconds ≠ 0 then "--seconds " ++ print_d info.seconds ++ " " else "") ++
  (if info.hit_count ≠ 0 then "--hitcount " ++ print_d info.hit_count ++ " " else "") ++
  (if info.check_set &&& XT_RECENT_TTL ≠ 0 then "--rttl " else "") ++
  ("--name " ++ info.name ++ " ") ++
  (if info.side = XT_RECENT_SOURCE then "--rsource " else "") ++
  (if info.side = XT_RECENT_DEST then "--rdest " else "")

/-- Options for this module: name, `has_arg`, `val`. -/
def opts : List (String × Bool × Int) :=
  [("set", false, 201), ("rcheck", false, 202), ("update", false, 203),
   ("seconds", true, 204), ("hitcount", true, 205), ("remove", false, 206),
   ("rttl", false, 207), ("name", true, 208), ("rsource", false, 209),
   ("rdest", false, 210)]

/-- One call of `parse`: option code, `optarg`, `invert`. -/
abbrev Arg := Int × Option String × Bool

/-- The calls of `parse` for a sequence of options, each on the flags and the
record the one before left; the first failure ends the run. -/
def parse_all : List Arg → Nat → xt_recent_mtinfo → Except Failure (Nat × xt_recent_mtinfo)
  | [], flags, info => Except.ok (flags, info)
  | a :: rest, flags, info =>
      match parse a.1 a.2.1 a.2.2 flags info with
      | Except.error f => Except.error f
      | Except.ok r => parse_all rest r.2.1 r.2.2

/-- The command bits set in `check_set`. -/
def command_bits (check_set : Nat) : List Nat :=
  [XT_RECENT_SET, XT_RECENT_CHECK, XT_RECENT_UPDATE, XT_RECENT_REMOVE].filter
    (fun b => check_set &&& b ≠ 0)

/-- Tokens of a character list separated by runs of white space; `cur` is the
token being read. -/
def wordsAux : List Char → List Char → List String
  | cur, [] => if cur = [] then [] else [String.mk cur]
  | cur, c :: cs =>
      if c.isWhitespace then
        (if cur = [] then wordsAux [] cs else String.mk cur :: wordsAux [] cs)
      else wordsAux (cur ++ [c]) cs

/-- The words of a saved line, as an argument vector. -/
def words (s : String) : List String :=
  wordsAux [] s.data

/-- Entry of `opts` for the word `--name`. -/
def lookup (w : String) : Option (Bool × Int) :=
  match opts.find? (fun o => decide ("--" ++ o.1 = w)) with
  | some o => some o.2
  | none => none

/-- Modelled from the spec: "feeding the options printed by save back through
parse", the option loop of ip6tables (not among the sources): a word `!`
raises `invert` for the option that follows, a word `--name` is looked up in
`opts`, an option declared with an argument takes the next word as `optarg`,
and `parse` is called for each option in turn. -/
def feed : List String → Bool → Nat → xt_recent_mtinfo →
    Except Failure (Nat × xt_recent_mtinfo)
  | [], _, flags, info => Except.ok (flags, info)
  | w :: rest, invert, flags, info =>
      if w = "!" then
        (if invert then Except.error (Failure.PARAMETER_PROBLEM "Multiple `!' flags not allowed")
          else feed rest true flags info)
      else
        match lookup w with
        | none => Except.error (Failure.PARAMETER_PROBLEM "unknown option")
        | some (false, c) =>
            (match parse c none invert flags info with
              | Except.error f => Except.error f
              | Except.ok r => feed rest false r.2.1 r.2.2)
        | some (true, c) =>
            (match rest with
              | [] => Except.error (Failure.PARAMETER_PROBLEM "option requires an argument")
              | a :: rest2 =>
                  (match parse c (some a) invert flags info with
                    | Except.error f => Except.error f
                    | Except.ok r => feed rest2 false r.2.1 r.2.2))

/-- A saved line fed back through `init` and `parse`. -/
def restore (text : String) : Except Failure (Nat × xt_recent_mtinfo) :=
  feed (words text) false 0 (init zero_info)

/-- The options `--set --name ""`. -/
def args_empty_name : List Arg :=
  [(201, none, false), (208, some "", false)]

/-- The record `init` and `args_empty_name` leave. -/
def info_empty_name : xt_recent_mtinfo :=
  ⟨0, 0, 2, 0, "", 0⟩

/-- The options `! --update --seconds 60 --hitcount 3 --rttl --name ssh --rdest`. -/
def args_update : List Arg :=
  [(203, none, true), (204, some "60", false), (205, some "3", false), (207, none, false),
   (208, some "ssh", false), (210, none, false)]

/-- The record `init` and `args_update` leave. -/
def info_update : xt_recent_mtinfo :=
  ⟨60, 3, 20, 1, "ssh", 1⟩

/-- What `parse` keeps true of `*flags` and `check_set`: no command bit while
the flags are 0, exactly one command bit once they are 1. -/
def Inv (flags check_set : Nat) : Prop :=
  (flags = 0 ∧ (check_set = 0 ∨ check_set = 16)) ∨
  (flags = 1 ∧ (check_set = 1 ∨ check_set = 2 ∨ check_set = 4 ∨ check_set = 8 ∨
    check_set = 17 ∨ check_set = 18 ∨ check_set = 20 ∨ check_set = 24))

end Recent

namespace PptpClient

/-! ## Theorems -/

theorem nat_lor_eq_zero (m n : Nat) (h : m ||| n = 0) : m = 0 ∧ n = 0 := by
  constructor
  · apply Nat.eq_of_testBit_eq; intro i
    have := congrArg (fun x => Nat.testBit x i) h
    simp [Nat.testBit_or] at this
    simp [this.1]
  · apply Nat.eq_of_testBit_eq; intro i
    have := congrArg (fun x => Nat.testBit x i) h
    simp [Nat.testBit_or] at this
    simp [this.2]

theorem int_lor_eq_zero (a b : Int) : Int.lor a b = 0 ↔ a = 0 ∧ b = 0 := by
  constructor
  · intro h
    cases a <;> cases b <;> simp [Int.lor] at h
    rename_i m n
    have h1 : (m ||| n) = 0 := by exact_mod_cast h
    have h2 := nat_lor_eq_zero m n h1
    simp [h2.1, h2.2]
  · rintro ⟨rfl, rfl⟩
    rfl

@[simp] theorem pidof_trace (n : String) (r : Run) :
    (pidof n r).2.trace = r.trace ++ [Event.pidof n (pidof n r).1] := rfl

@[simp] theorem pidof_world (n : String) (r : Run) : (pidof n r).2.world = r.world := rfl

@[simp] theorem unlink_trace (p : String) (r : Run) :
    (unlink p r).2.trace = r.trace ++ [Event.unlink p (unlink p r).1] := rfl

@[simp] theorem mkdir_trace (p : String) (m : Nat) (r : Run) :
    (mkdir p m r).2.trace = r.trace ++ [Event.mkdir p m (mkdir p m r).1] := rfl

@[simp] theorem symlink_trace (e : Env) (t l : String) (r : Run) :
    (symlink e t l r).2.trace = r.trace ++ [Event.symlink t l (symlink e t l r).1] := rfl

@[simp] theorem rmdir_trace (p : String) (r : Run) :
    (rmdir p r).2.trace = r.trace ++ [Event.rmdir p (rmdir p r).1] := rfl

@[simp] theorem killall_trace (n : String) (s : Nat) (r : Run) :
    (killall n s r).trace = r.trace ++ [Event.killall n s] := rfl

@[simp] theorem fclose_trace (fd : String) (r : Run) :
    (fclose fd r).trace = r.trace ++ [Event.fclose fd] := rfl

@[simp] theorem fclose_world (fd : String) (r : Run) : (fclose fd r).world = r.world := rfl

@[simp] theorem fprintf_trace (fd t : String) (r : Run) :
    (fprintf fd t r).trace = r.trace ++ [Event.fprintf fd t] := rfl

@[simp] theorem fprintf_each_trace (fd : String) (ts : List String) (r : Run) :
    (fprintf_each fd ts r).trace = r.trace ++ ts.map (Event.fprintf fd) := by
  induction ts generalizing r with
  | nil => simp [fprintf_each]
  | cons t ts ih => simp [fprintf_each, ih]

theorem fopen_trace (e : Env) (p m : String) (r : Run) :
    (fopen e p m r).2.trace = r.trace ++ [Event.fopen p m (fopen e p m r).1] := by
  unfold fopen
  dsimp only
  cases (if m = "w" ∧ e.fopen_fault p = false then r.world.fs.open_w p else none) <;> rfl

theorem eval_trace (e : Env) (argv : List String) (r : Run) :
    (_eval e argv r).2.trace = r.trace ++ [Event._eval argv (_eval e argv r).1] := by
  unfold _eval
  split
  · rfl
  · split <;> rfl

theorem stop_trace (e : Env) (r : Run) :
    ∃ a b, (stop_pptp_client e r).trace = r.trace ++ [Event.stop_pptp_client, Event.killall "pptpclient" SIGTERM,
      Event._eval ["rm", "-rf", "/etc/vpn/pptpclient", "/etc/vpn/ip-down", "/etc/vpn/ip-up", "/etc/vpn/options.vpn"] a,
      Event.rmdir "/etc/vpn" b] := by
  unfold stop_pptp_client
  simp only [rmdir_trace, eval_trace, killall_trace, List.append_assoc, List.singleton_append, List.cons_append, List.nil_append]
  exact ⟨_, _, rfl⟩

theorem start_eq (e : Env) (r : Run) :
    start_pptp_client e r =
      if (pidof "pptpclient" r).1 ≥ 0 then (pidof "pptpclient" r).2
      else if (start_wire e (pidof "pptpclient" r).2).1 ≠ 0 then
        stop_pptp_client e (start_wire e (pidof "pptpclient" r).2).2
      else
        start_launch e
          (start_config e (start_wire e (pidof "pptpclient" r).2).1
            (start_wire e (pidof "pptpclient" r).2).2).1
          (start_config e (start_wire e (pidof "pptpclient" r).2).1
            (start_wire e (pidof "pptpclient" r).2).2).2 := rfl

theorem strtok_launch :
    strtok_all "/etc/vpn/pptpclient file /etc/vpn/options.vpn" = launch_argv := by decide

theorem strtok_rm :
    strtok_all "rm -rf /etc/vpn/pptpclient /etc/vpn/ip-down /etc/vpn/ip-up /etc/vpn/options.vpn" =
      ["rm", "-rf", "/etc/vpn/pptpclient", "/etc/vpn/ip-down", "/etc/vpn/ip-up",
        "/etc/vpn/options.vpn"] := by decide

theorem start_wire_trace (e : Env) (r : Run) :
    ∃ u1 u2 u3 u4 u5 m s1 s2 u6 s3,
      (start_wire e r).2.trace = r.trace ++
        [Event.unlink "/etc/vpn/ip-down" u1, Event.unlink "/etc/vpn/ip-up" u2,
         Event.unlink "/etc/vpn/ip-vpn" u3, Event.unlink "/etc/vpn/options.vpn" u4,
         Event.unlink "/etc/vpn" u5, Event.mkdir "/etc/vpn" 0o700 m,
         Event.symlink "/rom/etc/vpn/ip-down" "/etc/vpn/ip-down" s1,
         Event.symlink "/rom/etc/vpn/ip-up" "/etc/vpn/ip-up" s2,
         Event.unlink "/etc/vpn/pptpclient" u6,
         Event.symlink "/usr/sbin/pppd" "/etc/vpn/pptpclient" s3] ∧
      ((start_wire e r).1 = 0 ↔ s1 = 0 ∧ s2 = 0 ∧ s3 = 0) := by
  unfold start_wire
  simp only [symlink_trace, unlink_trace, mkdir_trace, List.append_assoc, List.singleton_append,
    List.cons_append, List.nil_append, int_lor_eq_zero, true_and, and_assoc]
  exact ⟨_, _, _, _, _, _, _, _, _, _, rfl, Iff.rfl⟩

theorem start_config_trace (e : Env) (ok : Int) (r : Run) :
    ((start_config e ok r).2.trace = r.trace ++
        [Event.fopen "/etc/vpn/options.vpn" "w" none] ∧ (start_config e ok r).1 = ok) ∨
    ((start_config e ok r).2.trace = r.trace ++
        Event.fopen "/etc/vpn/options.vpn" "w" (some "/etc/vpn/options.vpn") ::
          ((write_options e).2.map (Event.fprintf "/etc/vpn/options.vpn") ++
            [Event.fclose "/etc/vpn/options.vpn"]) ∧
      (start_config e ok r).1 = (write_options e).1) := by
  have ht := fopen_trace e "/etc/vpn/options.vpn" "w" r
  have hv : (fopen e "/etc/vpn/options.vpn" "w" r).1 = none ∨
      (fopen e "/etc/vpn/options.vpn" "w" r).1 = some "/etc/vpn/options.vpn" := by
    unfold fopen
    dsimp only
    cases (if "w" = "w" ∧ e.fopen_fault "/etc/vpn/options.vpn" = false
      then r.world.fs.open_w "/etc/vpn/options.vpn" else none) <;> simp
  unfold start_config
  dsimp only
  rcases hv with hv | hv
  · left
    rw [hv] at ht ⊢
    exact ⟨ht, rfl⟩
  · right
    rw [hv] at ht ⊢
    simp [ht]

theorem write_options_ok (e : Env) :
    (write_options e).1 ≠ 0 ↔
      nvram_get e "pptp_client_username" ≠ none ∧ nvram_get e "pptp_client_passwd" ≠ none := by
  unfold write_options
  dsimp only
  cases nvram_get e "pptp_client_username" <;> cases nvram_get e "pptp_client_passwd" <;> simp

/-- C2. When a process named `pptpclient` exists, `pidof` returns a value
`>= 0` and `start_pptp_client` returns at once: the probe is the only call it
makes (no `unlink`, `mkdir`, `symlink`, file write, signal or spawn) and the
world after the call is the world before it. -/
theorem start_already_running (e : Env) (w : World)
    (h : ∃ pid, (pid, "pptpclient") ∈ w.procs) :
    ∃ pid : Int, 0 ≤ pid ∧
      start_pptp_client e ⟨w, []⟩ = ⟨w, [Event.pidof "pptpclient" pid]⟩ := by
  have hp : (pidof "pptpclient" ⟨w, []⟩).1 ≥ 0 := by
    unfold pidof
    dsimp only
    obtain ⟨pid, hpid⟩ := h
    cases hf : List.find? (fun p => decide (p.2 = "pptpclient")) w.procs with
    | none =>
      rw [List.find?_eq_none] at hf
      have := hf _ hpid
      simp at this
    | some p => simp
  refine ⟨(pidof "pptpclient" ⟨w, []⟩).1, hp, ?_⟩
  rw [start_eq, if_pos hp]
  rfl

theorem FS.get_eq_none_iff (fs : FS) (p : String) :
    fs.get p = none ↔ ∀ x ∈ fs, x.1 ≠ p := by
  induction fs with
  | nil => simp [FS.get]
  | cons x rest ih =>
    obtain ⟨q, n⟩ := x
    by_cases hq : q = p
    · simp [FS.get, hq]
    · simp [FS.get, hq, ih]

theorem FS.foldl_rm_rf (ps : List String) (fs : FS) :
    ps.foldl FS.rm_rf fs = fs.filter (fun x => ps.all (fun p => !atOrUnder p x.1)) := by
  induction ps generalizing fs with
  | nil => simp
  | cons p ps ih =>
    simp only [List.foldl_cons, ih, FS.rm_rf, List.filter_filter, List.all_cons]
    congr 1
    funext x
    simp [Bool.and_comm]

theorem stop_world (e : Env) (r : Run) :
    (stop_pptp_client e r).world =
      ⟨(FS.rmdir (r.world.fs.filter (fun x => stop_paths.all (fun p => !atOrUnder p x.1)))
          "/etc/vpn").2,
        r.world.procs.filter (fun p => decide (p.2 ≠ "pptpclient"))⟩ := by
  unfold stop_pptp_client
  dsimp only
  rw [strtok_rm, ← FS.foldl_rm_rf]
  rfl

theorem FS.absent_get (fs : FS) (p : String) (h : FS.absent fs p) : FS.get fs p = none := by
  rw [FS.get_eq_none_iff]
  intro x hx hp
  have := h x hx
  simp [atOrUnder, hp] at this

theorem FS.rmdir_subset (fs : FS) (p : String) : ∀ x ∈ (FS.rmdir fs p).2, x ∈ fs := by
  intro x hx
  unfold FS.rmdir at hx
  split at hx
  · exact (List.mem_filter.mp hx).1
  · exact hx

theorem FS.remove_get (fs : FS) (p : String) : FS.get (FS.remove fs p) p = none := by
  rw [FS.get_eq_none_iff]
  intro x hx
  have := (List.mem_filter.mp hx).2
  simpa using this

theorem stop_world_eq (e : Env) (r : Run) :
    (stop_pptp_client e r).world =
      ⟨(FS.rmdir (FS.rm_stop_paths r.world.fs) "/etc/vpn").2,
        r.world.procs.filter (fun p => decide (p.2 ≠ "pptpclient"))⟩ := stop_world e r

theorem stop_fs_subset (e : Env) (r : Run) :
    ∀ x ∈ (stop_pptp_client e r).world.fs, x ∈ r.world.fs ∧
      ∀ p ∈ stop_paths, atOrUnder p x.1 = false := by
  intro x hx
  rw [stop_world_eq] at hx
  have h1 := FS.rmdir_subset _ _ x hx
  have h2 := List.mem_filter.mp h1
  refine ⟨h2.1, fun p hp => ?_⟩
  have := List.all_eq_true.mp h2.2 p hp
  simpa using this

theorem stop_absent (e : Env) (r : Run) (p : String) (hp : p ∈ stop_paths) :
    FS.absent (stop_pptp_client e r).world.fs p :=
  fun x hx => (stop_fs_subset e r x hx).2 p hp

theorem stop_procs (e : Env) (r : Run) :
    ∀ x ∈ (stop_pptp_client e r).world.procs, x.2 ≠ "pptpclient" := by
  intro x hx
  rw [stop_world_eq] at hx
  simpa using (List.mem_filter.mp hx).2

theorem FS.rm_stop_paths_idem (fs : FS) (fs1 : FS) (h : ∀ x ∈ fs1, x ∈ FS.rm_stop_paths fs) :
    FS.rm_stop_paths fs1 = fs1 := by
  unfold FS.rm_stop_paths
  rw [List.filter_eq_self]
  intro x hx
  exact (List.mem_filter.mp (h x hx)).2

theorem FS.rmdir_idem (fs : FS) (p : String) :
    (FS.rmdir (FS.rmdir fs p).2 p).2 = (FS.rmdir fs p).2 := by
  by_cases hc : FS.get fs p = some Node.dir ∧ fs.all (fun e => !isUnder p e.1) = true
  · have h1 : (FS.rmdir fs p).2 = FS.remove fs p := by
      unfold FS.rmdir; rw [if_pos hc]
    rw [h1]
    unfold FS.rmdir
    rw [if_neg]
    rw [FS.remove_get]
    simp
  · have h1 : (FS.rmdir fs p).2 = fs := by
      unfold FS.rmdir; rw [if_neg hc]
    rw [h1, h1]

theorem stop_idempotent (e1 e2 : Env) (r : Run) :
    (stop_pptp_client e2 (stop_pptp_client e1 r)).world = (stop_pptp_client e1 r).world := by
  rw [stop_world_eq e2, stop_world_eq e1]
  dsimp only
  have h := FS.rm_stop_paths_idem r.world.fs (FS.rmdir (FS.rm_stop_paths r.world.fs) "/etc/vpn").2
    (FS.rmdir_subset _ _)
  rw [h, FS.rmdir_idem, List.filter_filter]
  simp

theorem stop_clean (e : Env) (r : Run)
    (hdir : FS.absent r.world.fs "/etc/vpn")
    (hpaths : ∀ p ∈ stop_paths, FS.absent r.world.fs p)
    (hproc : ∀ x ∈ r.world.procs, x.2 ≠ "pptpclient") :
    (stop_pptp_client e r).world = r.world := by
  rw [stop_world_eq]
  have h1 : FS.rm_stop_paths r.world.fs = r.world.fs := by
    unfold FS.rm_stop_paths
    rw [List.filter_eq_self]
    intro x hx
    rw [List.all_eq_true]
    intro p hp
    simp [hpaths p hp x hx]
  have h2 : (FS.rmdir r.world.fs "/etc/vpn").2 = r.world.fs := by
    unfold FS.rmdir
    rw [if_neg]
    rw [FS.absent_get _ _ hdir]
    simp
  have h3 : r.world.procs.filter (fun p => decide (p.2 ≠ "pptpclient")) = r.world.procs := by
    rw [List.filter_eq_self]
    intro x hx
    simpa using hproc x hx
  rw [h1, h2, h3]

theorem start_cases (e : Env) (w : World) (h : (pidof "pptpclient" ⟨w, []⟩).1 < 0) :
    ∃ p u1 u2 u3 u4 u5 m s1 s2 u6 s3 : Int,
      (start_pre e w).trace = wire_events p u1 u2 u3 u4 u5 m s1 s2 u6 s3 ∧
      ((¬ (s1 = 0 ∧ s2 = 0 ∧ s3 = 0) ∧
          start_pptp_client e ⟨w, []⟩ = stop_pptp_client e (start_pre e w)) ∨
       ((s1 = 0 ∧ s2 = 0 ∧ s3 = 0) ∧
          (start_cfg e w).trace = (start_pre e w).trace ++
            [Event.fopen "/etc/vpn/options.vpn" "w" none] ∧
          start_pptp_client e ⟨w, []⟩ = stop_pptp_client e (start_cfg e w)) ∨
       ((s1 = 0 ∧ s2 = 0 ∧ s3 = 0) ∧
          (start_cfg e w).trace = (start_pre e w).trace ++ config_events e ∧
          (nvram_get e "pptp_client_username" = none ∨
            nvram_get e "pptp_client_passwd" = none) ∧
          start_pptp_client e ⟨w, []⟩ = stop_pptp_client e (start_cfg e w)) ∨
       ((s1 = 0 ∧ s2 = 0 ∧ s3 = 0) ∧
          (start_cfg e w).trace = (start_pre e w).trace ++ config_events e ∧
          (nvram_get e "pptp_client_username" ≠ none ∧
            nvram_get e "pptp_client_passwd" ≠ none) ∧
          (start_ev e w).2.trace = (start_cfg e w).trace ++
            [Event._eval launch_argv (start_ev e w).1] ∧
          (start_ev e w).1 ≠ 0 ∧
          start_pptp_client e ⟨w, []⟩ = stop_pptp_client e (start_ev e w).2) ∨
       ((s1 = 0 ∧ s2 = 0 ∧ s3 = 0) ∧
          (start_cfg e w).trace = (start_pre e w).trace ++ config_events e ∧
          (nvram_get e "pptp_client_username" ≠ none ∧
            nvram_get e "pptp_client_passwd" ≠ none) ∧
          (start_ev e w).2.trace = (start_cfg e w).trace ++
            [Event._eval launch_argv 0] ∧
          (start_ev e w).1 = 0 ∧
          start_pptp_client e ⟨w, []⟩ = (start_ev e w).2)) := by
  obtain ⟨u1, u2, u3, u4, u5, m, s1, s2, u6, s3, hwt, hwok⟩ :=
    start_wire_trace e (pidof "pptpclient" ⟨w, []⟩).2
  simp only [pidof_trace, List.nil_append, List.singleton_append] at hwt
  refine ⟨_, u1, u2, u3, u4, u5, m, s1, s2, u6, s3, hwt, ?_⟩
  rw [start_eq, if_neg (not_le.mpr h)]
  by_cases hw : (start_wire e (pidof "pptpclient" ⟨w, []⟩).2).1 ≠ 0
  · rw [if_pos hw]
    exact Or.inl ⟨fun hz => hw (hwok.mpr hz), rfl⟩
  · rw [if_neg hw]
    have hw0 : (start_wire e (pidof "pptpclient" ⟨w, []⟩).2).1 = 0 := not_not.mp hw
    have hz := hwok.mp hw0
    rw [hw0]
    right
    rcases start_config_trace e 0 (start_wire e (pidof "pptpclient" ⟨w, []⟩).2).2 with
      ⟨hct, hcok⟩ | ⟨hct, hcok⟩
    · rw [hcok]
      exact Or.inl ⟨hz, hct, rfl⟩
    · rw [hcok]
      right
      by_cases hok : (write_options e).1 ≠ 0
      · have hcred := (write_options_ok e).mp hok
        right
        unfold start_launch
        rw [if_pos hok, strtok_launch]
        dsimp only
        have het := eval_trace e launch_argv (start_cfg e w)
        by_cases hev : (_eval e launch_argv
            (start_config e 0 (start_wire e (pidof "pptpclient" ⟨w, []⟩).2).2).2).1 ≠ 0
        · rw [if_pos hev]
          exact Or.inl ⟨hz, hct, hcred, het, hev, rfl⟩
        · rw [if_neg hev]
          have hev0 : (start_ev e w).1 = 0 := not_not.mp hev
          have het0 : (start_ev e w).2.trace = (start_cfg e w).trace ++
              [Event._eval launch_argv 0] := by
            rw [← hev0]; exact het
          exact Or.inr ⟨hz, hct, hcred, het0, hev0, rfl⟩
      · unfold start_launch
        rw [if_neg hok]
        have hn := (not_congr (write_options_ok e)).mp hok
        refine Or.inl ⟨hz, hct, ?_, rfl⟩
        by_cases hu : nvram_get e "pptp_client_username" = none
        · exact Or.inl hu
        · right
          by_contra hp
          exact hn ⟨hu, hp⟩

theorem stop_trace_events (e : Env) (r : Run) :
    ∃ a b, (stop_pptp_client e r).trace = r.trace ++ stop_events a b :=
  stop_trace e r

theorem start_trace_cases (e : Env) (w : World) (h : (pidof "pptpclient" ⟨w, []⟩).1 < 0) :
    ∃ p u1 u2 u3 u4 u5 m s1 s2 u6 s3 a b st : Int,
      (¬ (s1 = 0 ∧ s2 = 0 ∧ s3 = 0) ∧
        start_pptp_client e ⟨w, []⟩ = stop_pptp_client e (start_pre e w) ∧
        (start_pre e w).trace = wire_events p u1 u2 u3 u4 u5 m s1 s2 u6 s3 ∧
        (start_pptp_client e ⟨w, []⟩).trace =
          wire_events p u1 u2 u3 u4 u5 m s1 s2 u6 s3 ++ stop_events a b) ∨
      (start_pptp_client e ⟨w, []⟩ = stop_pptp_client e (start_cfg e w) ∧
        (start_cfg e w).trace = wire_events p u1 u2 u3 u4 u5 m 0 0 u6 0 ++
          [Event.fopen "/etc/vpn/options.vpn" "w" none] ∧
        (start_pptp_client e ⟨w, []⟩).trace =
          wire_events p u1 u2 u3 u4 u5 m 0 0 u6 0 ++
            ([Event.fopen "/etc/vpn/options.vpn" "w" none] ++ stop_events a b)) ∨
      ((nvram_get e "pptp_client_username" = none ∨
          nvram_get e "pptp_client_passwd" = none) ∧
        start_pptp_client e ⟨w, []⟩ = stop_pptp_client e (start_cfg e w) ∧
        (start_cfg e w).trace = wire_events p u1 u2 u3 u4 u5 m 0 0 u6 0 ++ config_events e ∧
        (start_pptp_client e ⟨w, []⟩).trace =
          wire_events p u1 u2 u3 u4 u5 m 0 0 u6 0 ++ (config_events e ++ stop_events a b)) ∨
      ((nvram_get e "pptp_client_username" ≠ none ∧
          nvram_get e "pptp_client_passwd" ≠ none) ∧ st ≠ 0 ∧
        start_pptp_client e ⟨w, []⟩ = stop_pptp_client e (start_ev e w).2 ∧
        (start_ev e w).2.trace = wire_events p u1 u2 u3 u4 u5 m 0 0 u6 0 ++
          (config_events e ++ [Event._eval launch_argv st]) ∧
        (start_pptp_client e ⟨w, []⟩).trace =
          wire_events p u1 u2 u3 u4 u5 m 0 0 u6 0 ++
            (config_events e ++ ([Event._eval launch_argv st] ++ stop_events a b))) ∨
      ((nvram_get e "pptp_client_username" ≠ none ∧
          nvram_get e "pptp_client_passwd" ≠ none) ∧
        start_pptp_client e ⟨w, []⟩ = (start_ev e w).2 ∧
        (start_pptp_client e ⟨w, []⟩).trace =
          wire_events p u1 u2 u3 u4 u5 m 0 0 u6 0 ++
            (config_events e ++ [Event._eval launch_argv 0])) := by
  obtain ⟨p, u1, u2, u3, u4, u5, m, s1, s2, u6, s3, hpre, hc⟩ := start_cases e w h
  rcases hc with ⟨hz, hs⟩ | ⟨⟨rfl, rfl, rfl⟩, hct, hs⟩ | ⟨⟨rfl, rfl, rfl⟩, hct, hcred, hs⟩ |
    ⟨⟨rfl, rfl, rfl⟩, hct, hcred, het, hev, hs⟩ | ⟨⟨rfl, rfl, rfl⟩, hct, hcred, het, hev, hs⟩
  · obtain ⟨a, b, hst⟩ := stop_trace_events e (start_pre e w)
    refine ⟨p, u1, u2, u3, u4, u5, m, s1, s2, u6, s3, a, b, 0, Or.inl ⟨hz, hs, hpre, ?_⟩⟩
    rw [hs, hst, hpre]
  · obtain ⟨a, b, hst⟩ := stop_trace_events e (start_cfg e w)
    rw [hpre] at hct
    refine ⟨p, u1, u2, u3, u4, u5, m, 0, 0, u6, 0, a, b, 0, Or.inr (Or.inl ⟨hs, hct, ?_⟩)⟩
    rw [hs, hst, hct, List.append_assoc]
  · obtain ⟨a, b, hst⟩ := stop_trace_events e (start_cfg e w)
    rw [hpre] at hct
    refine ⟨p, u1, u2, u3, u4, u5, m, 0, 0, u6, 0, a, b, 0,
      Or.inr (Or.inr (Or.inl ⟨hcred, hs, hct, ?_⟩))⟩
    rw [hs, hst, hct, List.append_assoc]
  · obtain ⟨a, b, hst⟩ := stop_trace_events e (start_ev e w).2
    rw [hpre] at hct
    rw [hct, List.append_assoc] at het
    refine ⟨p, u1, u2, u3, u4, u5, m, 0, 0, u6, 0, a, b, (start_ev e w).1,
      Or.inr (Or.inr (Or.inr (Or.inl ⟨hcred, hev, hs, het, ?_⟩)))⟩
    rw [hs, hst, het, List.append_assoc, List.append_assoc]
  · rw [hpre] at hct
    rw [hct, List.append_assoc] at het
    refine ⟨p, u1, u2, u3, u4, u5, m, 0, 0, u6, 0, 0, 0, 0,
      Or.inr (Or.inr (Or.inr (Or.inr ⟨hcred, hs, ?_⟩)))⟩
    rw [hs, het]

/-- C1. In every run of `start_pptp_client` in which the probe reports the
tunnel not running: if a failure occurs (a `symlink` call returns non-zero,
`fopen` returns `NULL`, the username is absent, the password is absent, or the
launcher `_eval` returns non-zero) then the run is the execution of
`stop_pptp_client` from some point of it, entered once, so that Teardown is
executed before the return and is the last action; and if no failure occurs
`stop_pptp_client` is not executed. -/
theorem start_teardown_iff_failure (e : Env) (w : World)
    (h : (pidof "pptpclient" ⟨w, []⟩).1 < 0) :
    (StartFailed e (start_pptp_client e ⟨w, []⟩).trace →
      ∃ mid : Run, start_pptp_client e ⟨w, []⟩ = stop_pptp_client e mid ∧
        Event.stop_pptp_client ∉ mid.trace) ∧
    (¬ StartFailed e (start_pptp_client e ⟨w, []⟩).trace →
      Event.stop_pptp_client ∉ (start_pptp_client e ⟨w, []⟩).trace) := by
  obtain ⟨p, u1, u2, u3, u4, u5, m, s1, s2, u6, s3, a, b, st, hc⟩ := start_trace_cases e w h
  rcases hc with ⟨hz, hs, hm, ht⟩ | ⟨hs, hm, ht⟩ | ⟨hcred, hs, hm, ht⟩ |
    ⟨-, hst, hs, hm, ht⟩ | ⟨hcred, hs, ht⟩
  · -- a `symlink` failed
    have hmid : Event.stop_pptp_client ∉ (start_pre e w).trace := by
      rw [hm]; simp [wire_events]
    have hfail : StartFailed e (start_pptp_client e ⟨w, []⟩).trace := by
      left
      rw [ht]
      by_cases h1 : s1 = 0
      · by_cases h2 : s2 = 0
        · exact ⟨"/usr/sbin/pppd", "/etc/vpn/pptpclient", s3, by simp [wire_events],
            fun h3 => hz ⟨h1, h2, h3⟩⟩
        · exact ⟨"/rom/etc/vpn/ip-up", "/etc/vpn/ip-up", s2, by simp [wire_events], h2⟩
      · exact ⟨"/rom/etc/vpn/ip-down", "/etc/vpn/ip-down", s1, by simp [wire_events], h1⟩
    exact ⟨fun _ => ⟨_, hs, hmid⟩, fun hn => absurd hfail hn⟩
  · -- the configuration file could not be opened
    have hmid : Event.stop_pptp_client ∉ (start_cfg e w).trace := by
      rw [hm]; simp [wire_events]
    have hfail : StartFailed e (start_pptp_client e ⟨w, []⟩).trace := by
      right; left
      exact ⟨"/etc/vpn/options.vpn", "w", by rw [ht]; simp⟩
    exact ⟨fun _ => ⟨_, hs, hmid⟩, fun hn => absurd hfail hn⟩
  · -- a credential is absent
    have hmid : Event.stop_pptp_client ∉ (start_cfg e w).trace := by
      rw [hm]; simp [wire_events, config_events]
    have hfail : StartFailed e (start_pptp_client e ⟨w, []⟩).trace := by
      rcases hcred with hu | hp
      · right; right; left; exact hu
      · right; right; right; left; exact hp
    exact ⟨fun _ => ⟨_, hs, hmid⟩, fun hn => absurd hfail hn⟩
  · -- the launcher failed
    have hmid : Event.stop_pptp_client ∉ (start_ev e w).2.trace := by
      rw [hm]; simp [wire_events, config_events]
    have hfail : StartFailed e (start_pptp_client e ⟨w, []⟩).trace := by
      right; right; right; right
      exact ⟨st, by rw [ht]; simp, hst⟩
    exact ⟨fun _ => ⟨_, hs, hmid⟩, fun hn => absurd hfail hn⟩
  · -- nothing failed
    have hnostop : Event.stop_pptp_client ∉ (start_pptp_client e ⟨w, []⟩).trace := by
      rw [ht]; simp [wire_events, config_events]
    refine ⟨fun hf => ?_, fun _ => hnostop⟩
    exfalso
    rw [ht] at hf
    rcases hf with hf | hf | hf | hf | hf
    · obtain ⟨tg, l, ret, hmem, hne⟩ := hf
      simp [wire_events, config_events] at hmem
      rcases hmem with ⟨-, -, rfl⟩ | ⟨-, -, rfl⟩ | ⟨-, -, rfl⟩ <;> exact hne rfl
    · obtain ⟨q, m', hmem⟩ := hf
      simp [wire_events, config_events] at hmem
    · exact hcred.1 hf
    · exact hcred.2 hf
    · obtain ⟨ret, hmem, hne⟩ := hf
      simp [wire_events, config_events] at hmem
      exact hne hmem

/-- C3, amended. When the username or the password is absent and the tunnel
is not running, `start_pptp_client` never calls the launcher, runs
`stop_pptp_client` as its last action (the function is `void`: nothing is
reported to the caller), and after it returns `/etc/vpn/options.vpn` does not
exist. -/
theorem start_missing_credentials (e : Env) (w : World)
    (hrun : (pidof "pptpclient" ⟨w, []⟩).1 < 0)
    (hcred : nvram_get e "pptp_client_username" = none ∨
      nvram_get e "pptp_client_passwd" = none) :
    (∀ ret, Event._eval launch_argv ret ∉ (start_pptp_client e ⟨w, []⟩).trace) ∧
    (∃ mid : Run, start_pptp_client e ⟨w, []⟩ = stop_pptp_client e mid ∧
      Event.stop_pptp_client ∉ mid.trace) ∧
    FS.absent (start_pptp_client e ⟨w, []⟩).world.fs "/etc/vpn/options.vpn" := by
  obtain ⟨p, u1, u2, u3, u4, u5, m, s1, s2, u6, s3, a, b, st, hc⟩ := start_trace_cases e w hrun
  rcases hc with ⟨-, hs, hm, ht⟩ | ⟨hs, hm, ht⟩ | ⟨-, hs, hm, ht⟩ | ⟨hp, -⟩ | ⟨hp, -⟩
  · refine ⟨fun ret => ?_, ⟨_, hs, ?_⟩, ?_⟩
    · rw [ht]; simp [wire_events, stop_events, launch_argv]
    · rw [hm]; simp [wire_events]
    · rw [hs]; exact stop_absent e _ _ (by simp [stop_paths])
  · refine ⟨fun ret => ?_, ⟨_, hs, ?_⟩, ?_⟩
    · rw [ht]; simp [wire_events, stop_events, launch_argv]
    · rw [hm]; simp [wire_events]
    · rw [hs]; exact stop_absent e _ _ (by simp [stop_paths])
  · refine ⟨fun ret => ?_, ⟨_, hs, ?_⟩, ?_⟩
    · rw [ht]; simp [wire_events, stop_events, launch_argv, config_events]
    · rw [hm]; simp [wire_events, config_events]
    · rw [hs]; exact stop_absent e _ _ (by simp [stop_paths])
  · rcases hcred with h | h
    · exact absurd h hp.1
    · exact absurd h hp.2
  · rcases hcred with h | h
    · exact absurd h hp.1
    · exact absurd h hp.2

/-- C4. For every initial world and environment, when the tunnel is not
running and at least one of the three `symlink` calls returns non-zero, then
after `start_pptp_client` returns none of `/etc/vpn/ip-down`,
`/etc/vpn/ip-up`, `/etc/vpn/pptpclient` exists (nor `/etc/vpn/options.vpn`),
no configuration file was opened or written, the launcher was not called, and
all three `symlink` calls were made, in order. -/
theorem start_symlink_failure (e : Env) (w : World)
    (hrun : (pidof "pptpclient" ⟨w, []⟩).1 < 0)
    (hfail : ∃ tg l ret, Event.symlink tg l ret ∈ (start_pptp_client e ⟨w, []⟩).trace ∧
      ret ≠ 0) :
    (FS.absent (start_pptp_client e ⟨w, []⟩).world.fs "/etc/vpn/ip-down" ∧
      FS.absent (start_pptp_client e ⟨w, []⟩).world.fs "/etc/vpn/ip-up" ∧
      FS.absent (start_pptp_client e ⟨w, []⟩).world.fs "/etc/vpn/pptpclient" ∧
      FS.absent (start_pptp_client e ⟨w, []⟩).world.fs "/etc/vpn/options.vpn") ∧
    ((∀ p m ret, Event.fopen p m ret ∉ (start_pptp_client e ⟨w, []⟩).trace) ∧
      (∀ fd t, Event.fprintf fd t ∉ (start_pptp_client e ⟨w, []⟩).trace)) ∧
    (∀ ret, Event._eval launch_argv ret ∉ (start_pptp_client e ⟨w, []⟩).trace) ∧
    (∃ s1 s2 s3,
      [Event.symlink "/rom/etc/vpn/ip-down" "/etc/vpn/ip-down" s1,
       Event.symlink "/rom/etc/vpn/ip-up" "/etc/vpn/ip-up" s2,
       Event.symlink "/usr/sbin/pppd" "/etc/vpn/pptpclient" s3].Sublist
        (start_pptp_client e ⟨w, []⟩).trace) := by
  obtain ⟨tg, l, ret, hmem, hne⟩ := hfail
  obtain ⟨p, u1, u2, u3, u4, u5, m, s1, s2, u6, s3, a, b, st, hc⟩ := start_trace_cases e w hrun
  rcases hc with ⟨-, hs, hm, ht⟩ | ⟨hs, hm, ht⟩ | ⟨-, hs, hm, ht⟩ | ⟨-, -, hs, hm, ht⟩ | ⟨-, hs, ht⟩
  · refine ⟨⟨?_, ?_, ?_, ?_⟩, ⟨fun p m ret => ?_, fun fd t => ?_⟩, fun ret => ?_, s1, s2, s3, ?_⟩
    · rw [hs]; exact stop_absent e _ _ (by simp [stop_paths])
    · rw [hs]; exact stop_absent e _ _ (by simp [stop_paths])
    · rw [hs]; exact stop_absent e _ _ (by simp [stop_paths])
    · rw [hs]; exact stop_absent e _ _ (by simp [stop_paths])
    · rw [ht]; simp [wire_events, stop_events]
    · rw [ht]; simp [wire_events, stop_events]
    · rw [ht]; simp [wire_events, stop_events, launch_argv]
    · rw [ht]
      simp only [wire_events, stop_events, List.cons_append, List.nil_append]
      repeat first
        | exact List.Sublist.slnil
        | apply List.Sublist.cons₂
        | apply List.Sublist.cons
  all_goals
    exfalso
    rw [ht] at hmem
    simp [wire_events, stop_events, config_events] at hmem
    rcases hmem with ⟨-, -, rfl⟩ | ⟨-, -, rfl⟩ | ⟨-, -, rfl⟩ <;> exact hne rfl

theorem FS.get_mem (fs : FS) (p : String) (n : Node) (h : FS.get fs p = some n) :
    (p, n) ∈ fs := by
  induction fs with
  | nil => simp [FS.get] at h
  | cons x rest ih =>
    obtain ⟨q, k⟩ := x
    by_cases hq : q = p
    · simp [FS.get, hq] at h
      simp [hq, h]
    · simp [FS.get, hq] at h
      exact List.mem_cons_of_mem _ (ih h)

theorem unlink_fsAll (Q : String × Node → Prop) (p : String) (r : Run)
    (h : r.fsAll Q) : (unlink p r).2.fsAll Q := by
  intro x hx
  have hx' : x ∈ (FS.unlink r.world.fs p).2 := hx
  unfold FS.unlink at hx'
  split at hx'
  · exact h x (List.mem_filter.mp hx').1
  · exact h x (List.mem_filter.mp hx').1
  · exact h x hx'

theorem mkdir_fsAll (Q : String × Node → Prop) (p : String) (m : Nat) (r : Run)
    (h : r.fsAll Q) (hq : Q (p, Node.dir)) : (mkdir p m r).2.fsAll Q := by
  intro x hx
  have hx' : x ∈ (FS.mkdir r.world.fs p).2 := hx
  unfold FS.mkdir at hx'
  split at hx'
  · rcases List.mem_append.mp hx' with h1 | h1
    · exact h x h1
    · rw [List.mem_singleton] at h1; rw [h1]; exact hq
  · exact h x hx'

theorem symlink_fsAll (Q : String × Node → Prop) (e : Env) (t l : String) (r : Run)
    (h : r.fsAll Q) (hq : Q (l, Node.symlink t)) : (symlink e t l r).2.fsAll Q := by
  intro x hx
  have hx' : x ∈ (if e.symlink_fault l = true then ((-1 : Int), r.world.fs)
      else FS.symlink r.world.fs t l).2 := hx
  split at hx'
  · exact h x hx'
  · unfold FS.symlink at hx'
    split at hx'
    · rcases List.mem_append.mp hx' with h1 | h1
      · exact h x h1
      · rw [List.mem_singleton] at h1; rw [h1]; exact hq
    · exact h x hx'

theorem FS.open_w_all (Q : String × Node → Prop) (fs fs1 : FS) (p : String)
    (h : ∀ x ∈ fs, Q x) (hq : ∀ c, Q (p, Node.file c)) (ho : FS.open_w fs p = some fs1) :
    ∀ x ∈ fs1, Q x := by
  unfold FS.open_w at ho
  split at ho
  · split at ho
    · simp only [Option.some.injEq] at ho
      subst ho
      intro x hx
      rcases List.mem_append.mp hx with h1 | h1
      · exact h x h1
      · rw [List.mem_singleton] at h1; rw [h1]; exact hq ""
    · simp at ho
  · simp only [Option.some.injEq] at ho
    subst ho
    intro x hx
    obtain ⟨y, hy, rfl⟩ := List.mem_map.mp hx
    by_cases hp : y.1 = p
    · rw [if_pos hp, hp]; exact hq ""
    · rw [if_neg hp]; exact h y hy
  · simp at ho
  · simp at ho

theorem fopen_fsAll (Q : String × Node → Prop) (e : Env) (p m : String) (r : Run)
    (h : r.fsAll Q) (hq : ∀ c, Q (p, Node.file c)) : (fopen e p m r).2.fsAll Q := by
  unfold fopen
  dsimp only
  cases hc : (if m = "w" ∧ e.fopen_fault p = false then FS.open_w r.world.fs p else none) with
  | none => exact h
  | some fs1 =>
    have ho : FS.open_w r.world.fs p = some fs1 := by
      split at hc
      · exact hc
      · simp at hc
    exact FS.open_w_all Q _ _ p h hq ho

theorem fprintf_fsAll (Q : String × Node → Prop) (fd t : String) (r : Run)
    (h : r.fsAll Q) (hq : ∀ c, Q (fd, Node.file c)) : (fprintf fd t r).fsAll Q := by
  intro x hx
  have hx' : x ∈ FS.append r.world.fs fd t := hx
  unfold FS.append at hx'
  obtain ⟨y, hy, rfl⟩ := List.mem_map.mp hx'
  by_cases hp : y.1 = fd
  · rw [if_pos hp]
    obtain ⟨q, n⟩ := y
    cases n with
    | file c => simp only at hp ⊢; rw [hp]; exact hq _
    | dir => exact h _ hy
    | symlink s => exact h _ hy
  · rw [if_neg hp]; exact h y hy

theorem fprintf_each_fsAll (Q : String × Node → Prop) (fd : String) (ts : List String) (r : Run)
    (h : r.fsAll Q) (hq : ∀ c, Q (fd, Node.file c)) : (fprintf_each fd ts r).fsAll Q := by
  induction ts generalizing r with
  | nil => exact h
  | cons t ts ih => exact ih _ (fprintf_fsAll Q fd t r h hq)

theorem eval_fsAll (Q : String × Node → Prop) (e : Env) (argv : List String) (r : Run)
    (h : r.fsAll Q) : (_eval e argv r).2.fsAll Q := by
  unfold _eval
  split
  · intro x hx
    have hx' : x ∈ (argv.drop 2).foldl FS.rm_rf r.world.fs := hx
    rw [FS.foldl_rm_rf] at hx'
    exact h x (List.mem_filter.mp hx').1
  · split
    · exact h
    · exact h

theorem stop_fsAll (Q : String × Node → Prop) (e : Env) (r : Run)
    (h : r.fsAll Q) : (stop_pptp_client e r).fsAll Q :=
  fun x hx => h x (stop_fs_subset e r x hx).1

theorem fclose_fsAll (Q : String × Node → Prop) (fd : String) (r : Run)
    (h : r.fsAll Q) : (fclose fd r).fsAll Q := h

theorem Run.tidy_iff (r : Run) : r.tidy ↔ FS.tidy r.world.fs = true := by
  unfold Run.tidy Run.fsAll FS.tidy
  rw [List.all_eq_true]

theorem tidy_options (c : String) : tidyEntry ("/etc/vpn/options.vpn", Node.file c) = true := by
  have h1 : decide ("/etc/vpn/options.vpn" ≠ "/etc/vpn") = true := by decide
  have h2 : stop_paths.any (fun p => atOrUnder p "/etc/vpn/options.vpn") = true := by decide
  simp only [tidyEntry, h1, h2, Bool.true_or, Bool.or_true, Bool.and_self]

theorem fopen_fd (e : Env) (p m fd : String) (r : Run) (h : (fopen e p m r).1 = some fd) :
    fd = p := by
  unfold fopen at h
  dsimp only at h
  cases hc : (if m = "w" ∧ e.fopen_fault p = false then FS.open_w r.world.fs p else none) with
  | none => rw [hc] at h; simp at h
  | some fs1 => rw [hc] at h; simp at h; exact h.symm

theorem start_wire_tidy (e : Env) (r : Run) (h : r.tidy) : (start_wire e r).2.tidy := by
  unfold start_wire Run.tidy
  dsimp only
  repeat first
    | exact h
    | apply symlink_fsAll
    | apply unlink_fsAll
    | apply mkdir_fsAll
    | decide

theorem start_config_tidy (e : Env) (ok : Int) (r : Run) (h : r.tidy) :
    (start_config e ok r).2.tidy := by
  have h1 : (fopen e "/etc/vpn/options.vpn" "w" r).2.tidy :=
    fopen_fsAll (fun x => tidyEntry x = true) e _ _ r h tidy_options
  unfold start_config
  dsimp only
  split
  · rename_i fd hfd
    have hfd' : fd = "/etc/vpn/options.vpn" := fopen_fd e _ _ _ _ hfd
    subst hfd'
    have h2 : (fprintf_each "/etc/vpn/options.vpn" (write_options e).2
        (fopen e "/etc/vpn/options.vpn" "w" r).2).tidy :=
      fprintf_each_fsAll (fun x => tidyEntry x = true) _ _ _ h1 tidy_options
    exact fclose_fsAll (fun x => tidyEntry x = true) _ _ h2
  · exact h1

theorem start_launch_tidy (e : Env) (ok : Int) (r : Run) (h : r.tidy) :
    (start_launch e ok r).tidy := by
  unfold start_launch
  split
  · dsimp only
    split
    · exact stop_fsAll (fun x => tidyEntry x = true) e _
        (eval_fsAll (fun x => tidyEntry x = true) e _ r h)
    · exact eval_fsAll (fun x => tidyEntry x = true) e _ r h
  · exact stop_fsAll (fun x => tidyEntry x = true) e _ h

theorem start_tidy (e : Env) (r : Run) (h : r.tidy) : (start_pptp_client e r).tidy := by
  rw [start_eq]
  have h0 : (pidof "pptpclient" r).2.tidy := h
  split
  · exact h0
  · split
    · exact stop_fsAll (fun x => tidyEntry x = true) e _ (start_wire_tidy e _ h0)
    · exact start_launch_tidy e _ _ (start_config_tidy e _ _ (start_wire_tidy e _ h0))

theorem run_calls_tidy (cs : List Call) (r : Run) (h : r.tidy) : (run_calls cs r).tidy := by
  induction cs generalizing r with
  | nil => exact h
  | cons c cs ih =>
    unfold run_calls
    rw [List.foldl_cons]
    apply ih
    cases c with
    | start e => exact start_tidy e r h
    | stop e => exact stop_fsAll (fun x => tidyEntry x = true) e r h

theorem stop_tidy_absent (e : Env) (r : Run) (h : r.tidy) :
    FS.absent (stop_pptp_client e r).world.fs "/etc/vpn" := by
  -- nothing is left below `/etc/vpn` once the four paths are gone
  have hunder : ∀ x ∈ FS.rm_stop_paths r.world.fs, isUnder "/etc/vpn" x.1 = false := by
    intro x hx
    have hx' := List.mem_filter.mp hx
    have ht := h x hx'.1
    have hk := hx'.2
    by_contra hu
    rw [Bool.not_eq_false] at hu
    simp only [tidyEntry, hu, Bool.not_true, Bool.false_or, Bool.and_eq_true,
      List.any_eq_true] at ht
    obtain ⟨p, hp, hpx⟩ := ht.2
    have := List.all_eq_true.mp hk p hp
    simp [hpx] at this
  have hall : (FS.rm_stop_paths r.world.fs).all (fun x => !isUnder "/etc/vpn" x.1) = true := by
    rw [List.all_eq_true]
    intro x hx
    simp [hunder x hx]
  intro x hx
  rw [stop_world_eq] at hx
  have hx1 : x ∈ (FS.rmdir (FS.rm_stop_paths r.world.fs) "/etc/vpn").2 := hx
  have hsub := FS.rmdir_subset _ _ x hx1
  have hxu := hunder x hsub
  simp only [atOrUnder, hxu, Bool.or_false, decide_eq_false_iff_not]
  intro hxe
  cases hg : FS.get (FS.rm_stop_paths r.world.fs) "/etc/vpn" with
  | none =>
    exact (FS.get_eq_none_iff _ _).mp hg x hsub hxe
  | some n =>
    have hmem := (List.mem_filter.mp (FS.get_mem _ _ _ hg)).1
    have ht := h _ hmem
    simp [tidyEntry] at ht
    have hn : n = Node.dir := ht.1
    subst hn
    unfold FS.rmdir at hx1
    rw [if_pos ⟨hg, hall⟩] at hx1
    have := (List.mem_filter.mp hx1).2
    simp at this
    exact this hxe

/-- C7. `stop_pptp_client` is idempotent and a no-op on a clean system: run
twice in a row it leaves the world (filesystem and processes) that one run
leaves; on a world where `/etc/vpn` and the four fixed paths do not exist and
no `pptpclient` process runs it leaves the world unchanged; and it reports no
failure: it is `void`, total, and always makes the same four calls whatever
`_eval` and `rmdir` return. -/
theorem stop_idempotent_noop (e1 e2 : Env) (r : Run) :
    (stop_pptp_client e2 (stop_pptp_client e1 r)).world = (stop_pptp_client e1 r).world ∧
    (FS.absent r.world.fs "/etc/vpn" ∧ (∀ p ∈ stop_paths, FS.absent r.world.fs p) ∧
        (∀ x ∈ r.world.procs, x.2 ≠ "pptpclient") →
      (stop_pptp_client e1 r).world = r.world) ∧
    (∃ a b, (stop_pptp_client e1 r).trace = r.trace ++ stop_events a b) :=
  ⟨stop_idempotent e1 e2 r, fun h => stop_clean e1 r h.1 h.2.1 h.2.2, stop_trace_events e1 r⟩

/-- C7, at concrete systems: stopping a running tunnel twice, and stopping on
the idle system. -/
theorem stop_idempotent_noop_witness :
    (stop_pptp_client env_ok (stop_pptp_client env_ok ⟨w_running, []⟩)).world =
      (stop_pptp_client env_ok ⟨w_running, []⟩).world ∧
    (stop_pptp_client env_ok ⟨w_idle, []⟩).world = w_idle :=
  ⟨(stop_idempotent_noop env_ok env_ok ⟨w_running, []⟩).1,
   (stop_idempotent_noop env_ok env_ok ⟨w_idle, []⟩).2.1 (by
      refine ⟨?_, ?_, ?_⟩
      · intro x hx; revert x hx; decide
      · intro p hp x hx; revert x hx; revert p hp; decide
      · intro x hx; revert x hx; decide)⟩

/-- C5 fails as stated: from a system whose `/etc/vpn` holds a foreign file
`/etc/vpn/notes`, the calls start, stop leave `/etc/vpn` in place as a
directory, still holding that file. -/
theorem stop_keeps_foreign_dir :
    FS.get (run_calls [Call.start env_ok, Call.stop env_ok] ⟨w_foreign, []⟩).world.fs
        "/etc/vpn" = some Node.dir ∧
      FS.get (run_calls [Call.start env_ok, Call.stop env_ok] ⟨w_foreign, []⟩).world.fs
        "/etc/vpn/notes" = some (Node.file "keep") := by
  decide

/-- C5, amended. From every initial world whose table is tidy (`/etc/vpn`
absent or a directory, and nothing below it besides the four paths that
`stop_pptp_client` removes), after every finite sequence of start and stop
calls, in any environments, that ends with a stop, `/etc/vpn` does not exist
(no entry at it or below it) and no process named `pptpclient` remains. -/
theorem stop_after_calls_clears (w : World) (cs : List Call) (e : Env)
    (h : FS.tidy w.fs = true) :
    FS.absent (run_calls (cs ++ [Call.stop e]) ⟨w, []⟩).world.fs "/etc/vpn" ∧
    ∀ x ∈ (run_calls (cs ++ [Call.stop e]) ⟨w, []⟩).world.procs, x.2 ≠ "pptpclient" := by
  have hrun : run_calls (cs ++ [Call.stop e]) ⟨w, []⟩ =
      stop_pptp_client e (run_calls cs ⟨w, []⟩) := by
    unfold run_calls
    rw [List.foldl_append]
    rfl
  rw [hrun]
  have ht : (run_calls cs ⟨w, []⟩).tidy :=
    run_calls_tidy cs _ ((Run.tidy_iff _).mpr h)
  exact ⟨stop_tidy_absent e _ ht, stop_procs e _⟩

/-- C5 amended, at a concrete input: start, start, stop, start, stop from the
idle system. -/
theorem stop_after_calls_clears_witness :
    FS.tidy w_idle.fs = true ∧
    FS.absent (run_calls ([Call.start env_ok, Call.start env_nouser, Call.stop env_ok,
        Call.start env_spawnfail] ++ [Call.stop env_ok]) ⟨w_idle, []⟩).world.fs "/etc/vpn" :=
  ⟨by decide,
   (stop_after_calls_clears w_idle [Call.start env_ok, Call.start env_nouser, Call.stop env_ok,
      Call.start env_spawnfail] env_ok (by decide)).1⟩

/-- C1, at a concrete input: with the username missing on the idle system,
`stop_pptp_client` runs last. -/
theorem start_teardown_iff_failure_witness :
    (pidof "pptpclient" ⟨w_idle, []⟩).1 < 0 ∧
    ∃ mid : Run, start_pptp_client env_nouser ⟨w_idle, []⟩ = stop_pptp_client env_nouser mid ∧
      Event.stop_pptp_client ∉ mid.trace :=
  ⟨by decide,
   (start_teardown_iff_failure env_nouser w_idle (by decide)).1
     (Or.inr (Or.inr (Or.inl (by decide))))⟩

/-- C2, at a concrete input: the tunnel runs as process 412. -/
theorem start_already_running_witness :
    ∃ pid : Int, 0 ≤ pid ∧
      start_pptp_client env_ok ⟨w_running, []⟩ = ⟨w_running, [Event.pidof "pptpclient" pid]⟩ :=
  start_already_running env_ok w_running ⟨412, by decide⟩

/-- C3 fails as stated: nothing is reported. With the username missing the
caller gets back what it gets from a start in which nothing fails, and is left
with the very world a refused `symlink` (all credentials present) leaves. -/
theorem missing_credentials_unreported :
    nvram_get env_nouser "pptp_client_username" = none ∧
    (pidof "pptpclient" ⟨w_idle, []⟩).1 < 0 ∧
    Event.stop_pptp_client ∉ (start_pptp_client env_ok ⟨w_idle, []⟩).trace ∧
    start_pptp_client_ret env_nouser ⟨w_idle, []⟩ = start_pptp_client_ret env_ok ⟨w_idle, []⟩ ∧
    nvram_get env_symfail "pptp_client_username" ≠ none ∧
    nvram_get env_symfail "pptp_client_passwd" ≠ none ∧
    (start_pptp_client env_nouser ⟨w_idle, []⟩).world =
      (start_pptp_client env_symfail ⟨w_idle, []⟩).world := by
  decide

/-- C3 amended, at a concrete input: the username is missing on the idle system. -/
theorem start_missing_credentials_witness :
    (pidof "pptpclient" ⟨w_idle, []⟩).1 < 0 ∧
    nvram_get env_nouser "pptp_client_username" = none ∧
    FS.absent (start_pptp_client env_nouser ⟨w_idle, []⟩).world.fs "/etc/vpn/options.vpn" :=
  ⟨by decide, by decide,
   (start_missing_credentials env_nouser w_idle (by decide) (Or.inl (by decide))).2.2⟩

/-- C4, at a concrete input: the second `symlink` is refused on the idle system. -/
theorem start_symlink_failure_witness :
    (pidof "pptpclient" ⟨w_idle, []⟩).1 < 0 ∧
    Event.symlink "/rom/etc/vpn/ip-up" "/etc/vpn/ip-up" (-1) ∈
      (start_pptp_client env_symfail ⟨w_idle, []⟩).trace ∧
    FS.absent (start_pptp_client env_symfail ⟨w_idle, []⟩).world.fs "/etc/vpn/ip-down" :=
  ⟨by decide, by decide,
   (start_symlink_failure env_symfail w_idle (by decide)
     ⟨"/rom/etc/vpn/ip-up", "/etc/vpn/ip-up", -1, by decide, by decide⟩).1.1⟩

theorem linesOf_newline (cs : List Char) : linesOf ('\n' :: cs) = [] :: linesOf cs := by
  simp [linesOf]

theorem linesOf_plain (c : Char) (cs : List Char) (hc : c ≠ '\n') :
    linesOf (c :: cs) = match linesOf cs with
      | [] => [[c]]
      | l :: ls => (c :: l) :: ls := by
  rw [linesOf, if_neg hc]

theorem linesOf_ne_nil (c : Char) (cs : List Char) : linesOf (c :: cs) ≠ [] := by
  by_cases hc : c = '\n'
  · subst hc; rw [linesOf_newline]; simp
  · rw [linesOf_plain c cs hc]
    split <;> simp

theorem linesOf_append_newline (a b : List Char) :
    linesOf (a ++ '\n' :: b) = linesOf (a ++ ['\n']) ++ linesOf b := by
  induction a with
  | nil => simp [linesOf]
  | cons c t ih =>
    by_cases hc : c = '\n'
    · subst hc
      simp only [List.cons_append, linesOf_newline, ih, List.cons_append]
    · have h1 : linesOf (t ++ ['\n']) ≠ [] := by
        cases t with
        | nil => simp [linesOf]
        | cons d t' => exact linesOf_ne_nil d _
      simp only [List.cons_append]
      rw [linesOf_plain c _ hc, linesOf_plain c _ hc, ih]
      cases hl : linesOf (t ++ ['\n']) with
      | nil => exact absurd hl h1
      | cons l ls => simp

/-- A run of characters without a newline in front of a text joins its first line. -/
theorem linesOf_plain_append (s t l : List Char) (ls : List (List Char))
    (hs : '\n' ∉ s) (ht : linesOf t = l :: ls) :
    linesOf (s ++ t) = (s ++ l) :: ls := by
  induction s with
  | nil => simpa using ht
  | cons c s ih =>
    have hc : c ≠ '\n' := fun h => hs (by simp [h])
    have hs' : '\n' ∉ s := fun h => hs (List.mem_cons_of_mem _ h)
    simp only [List.cons_append]
    rw [linesOf_plain c _ hc, ih hs']

theorem linesOf_plain_newline (s : List Char) (hs : '\n' ∉ s) :
    linesOf (s ++ ['\n']) = [s] := by
  have := linesOf_plain_append s ['\n'] [] [] hs (by simp [linesOf])
  simpa using this

theorem linesOf_snoc_newline (t : List Char) :
    linesOf (t ++ ['\n']) =
      linesOf t ++ (if t = [] ∨ t.getLast? = some '\n' then [[]] else []) := by
  induction t with
  | nil => simp [linesOf]
  | cons c t ih =>
    cases t with
    | nil =>
      by_cases hc : c = '\n'
      · subst hc; simp [linesOf]
      · have : ¬ (some c = some '\n') := by simpa using hc
        simp [linesOf, hc]
    | cons d t' =>
      have h1 := linesOf_ne_nil d t'
      have hlast : (c :: d :: t').getLast? = (d :: t').getLast? := List.getLast?_cons_cons
      have ih' : linesOf (d :: (t' ++ ['\n'])) = linesOf (d :: t') ++
          (if (d :: t').getLast? = some '\n' then [[]] else []) := by
        simpa using ih
      simp only [List.cons_append, hlast, List.cons_ne_nil, false_or]
      by_cases hc : c = '\n'
      · subst hc
        rw [linesOf_newline, linesOf_newline, ih', List.cons_append]
      · rw [linesOf_plain c _ hc, linesOf_plain c _ hc, ih']
        cases hl : linesOf (d :: t') with
        | nil => exact absurd hl h1
        | cons l ls => simp

theorem linesOf_snoc_newline_mem (t x : List Char) (h : x ∈ linesOf (t ++ ['\n'])) :
    x ∈ linesOf t ∨ x = [] := by
  rw [linesOf_snoc_newline] at h
  rcases List.mem_append.mp h with h | h
  · exact Or.inl h
  · split at h
    · right; simpa using h
    · simp at h

theorem lines_append_newline (a b : String) :
    lines (a ++ "\n" ++ b) = lines (a ++ "\n") ++ lines b := by
  unfold lines
  have h : ("\n" : String).data = ['\n'] := rfl
  simp only [String.data_append, h, List.append_assoc, List.singleton_append]
  rw [linesOf_append_newline, List.map_append]

theorem lines_concat (ps : List String) (h : ∀ p ∈ ps, ∃ t : String, p = t ++ "\n") :
    lines (ps.foldr (fun a b => a ++ b) "") = (ps.map lines).flatten := by
  induction ps with
  | nil => rfl
  | cons p ps ih =>
    obtain ⟨t, rfl⟩ := h _ (List.mem_cons_self _ _)
    rw [List.foldr_cons, lines_append_newline, ih (fun q hq => h q (List.mem_cons_of_mem _ hq))]
    simp

theorem mem_lines (x s : String) : x ∈ lines s ↔ x.data ∈ linesOf s.data := by
  unfold lines
  constructor
  · intro h
    obtain ⟨l, hl, rfl⟩ := List.mem_map.mp h
    exact hl
  · intro h
    exact List.mem_map.mpr ⟨x.data, h, rfl⟩

/-- Lines of `k ++ v ++ "\n"` for a key `k` without newline: every one is the
empty line, a line of `v`, or starts with `k`. -/
theorem lines_key_value (k v x : String) (hk : '\n' ∉ k.data)
    (hx : x ∈ lines (k ++ v ++ "\n")) :
    (∃ l0 : String, x = k ++ l0) ∨ x ∈ lines v ∨ x = "" := by
  rw [mem_lines] at hx
  have h : ("\n" : String).data = ['\n'] := rfl
  simp only [String.data_append, h, List.append_assoc] at hx
  cases hl : linesOf (v.data ++ ['\n']) with
  | nil =>
    exfalso
    cases hv : v.data with
    | nil => rw [hv] at hl; simp [linesOf] at hl
    | cons c cs => rw [hv] at hl; exact linesOf_ne_nil c _ hl
  | cons l0 ls =>
    rw [linesOf_plain_append k.data _ l0 ls hk hl] at hx
    rcases List.mem_cons.mp hx with hx | hx
    · left
      refine ⟨String.mk l0, ?_⟩
      apply String.ext
      simpa using hx
    · right
      have hmem : x.data ∈ linesOf (v.data ++ ['\n']) := by
        rw [hl]; exact List.mem_cons_of_mem _ hx
      rcases linesOf_snoc_newline_mem _ _ hmem with h1 | h1
      · left; rw [mem_lines]; exact h1
      · right; apply String.ext; simpa using h1

theorem lines_value (v x : String) (hx : x ∈ lines (v ++ "\n")) : x ∈ lines v ∨ x = "" := by
  rw [mem_lines] at hx
  have h : ("\n" : String).data = ['\n'] := rfl
  simp only [String.data_append, h] at hx
  rcases linesOf_snoc_newline_mem _ _ hx with h1 | h1
  · left; rw [mem_lines]; exact h1
  · right; apply String.ext; simpa using h1

theorem lines_key_value_plain (k v : String) (hk : '\n' ∉ k.data) (hv : '\n' ∉ v.data) :
    lines (k ++ v ++ "\n") = [k ++ v] := by
  unfold lines
  have h : ("\n" : String).data = ['\n'] := rfl
  rw [String.data_append, h, linesOf_plain_newline]
  · rfl
  · simp [String.data_append, hk, hv]

theorem hasKey_append (s k l : String) (hlen : s.data.length ≤ k.data.length) :
    hasKey s (k ++ l) = hasKey s k := by
  unfold hasKey
  rw [String.data_append]
  generalize s.data = a at hlen ⊢
  generalize k.data = b at hlen ⊢
  induction a generalizing b with
  | nil => simp [List.isPrefixOf]
  | cons c a ih =>
    cases b with
    | nil => simp at hlen
    | cons d b =>
      have h1 : a.isPrefixOf (b.append l.data) = a.isPrefixOf b := ih b (by simpa using hlen)
      simp only [List.cons_append, List.isPrefixOf, h1]

theorem write_options_terminated (e : Env) :
    ∀ p ∈ (write_options e).2, ∃ t : String, p = t ++ "\n" := by
  intro p hp
  unfold write_options at hp
  dsimp only at hp
  simp only [List.mem_append] at hp
  rcases hp with ((((((((((( h | h) | h) | h) | h) | h) | h) | h) | h) | h) | h) | h)
  · rw [List.mem_singleton] at h; exact ⟨_, h⟩
  · split at h
    · rw [List.mem_singleton] at h; exact ⟨"defaultroute", by rw [h]; decide⟩
    · simp at h
  · split at h
    · rw [List.mem_singleton] at h; exact ⟨"usepeerdns", by rw [h]; decide⟩
    · simp at h
  · rw [List.mem_singleton] at h
    exact ⟨"idle 0\nip-up-script /etc/vpn/ip-up\nip-down-script /etc/vpn/ip-down\nipparam kelokepptpd",
      by rw [h]; decide⟩
  · rw [List.mem_singleton] at h; exact ⟨_, h⟩
  · split at h
    · rw [List.mem_singleton] at h; exact ⟨_, h⟩
    · simp at h
  · split at h
    · simp at h
    · rw [List.mem_singleton] at h; exact ⟨_, h⟩
  · split at h
    · simp at h
    · rw [List.mem_singleton] at h; exact ⟨_, h⟩
  · split at h
    · rw [List.mem_singleton] at h; exact ⟨"nomppe", by rw [h]; decide⟩
    · split at h
      · simp only [List.mem_cons, List.mem_singleton, List.not_mem_nil, or_false] at h
        rcases h with h | h
        · exact ⟨"nomppe-40", by rw [h]; decide⟩
        · exact ⟨"require-mppe-128", by rw [h]; decide⟩
      · split at h
        · rw [List.mem_singleton] at h; exact ⟨"require-mppe", by rw [h]; decide⟩
        · simp at h
  · split at h
    · rw [List.mem_singleton] at h; exact ⟨"mppe-stateful", by rw [h]; decide⟩
    · rw [List.mem_singleton] at h; exact ⟨"nomppe-stateful", by rw [h]; decide⟩
  · rw [List.mem_singleton] at h; exact ⟨_, h⟩
  · rw [List.mem_singleton] at h; exact ⟨_, h⟩

theorem append_eq {α : Type} {a a1 b b1 : List α} (h1 : a = a1) (h2 : b = b1) :
    a ++ b = a1 ++ b1 := by
  rw [h1, h2]

theorem lines_header (srv : String) :
    lines ("lock\n" ++ "noauth\n" ++ "refuse-eap\n" ++ "lcp-echo-failure 3\n" ++
      "lcp-echo-interval 2\n" ++ "maxfail 0\n" ++ "persist\n" ++ "plugin pptp.so\n" ++
      "pptp_server " ++ srv ++ "\n") =
    ["lock", "noauth", "refuse-eap", "lcp-echo-failure 3", "lcp-echo-interval 2", "maxfail 0",
      "persist", "plugin pptp.so"] ++ lines ("pptp_server " ++ srv ++ "\n") := by
  have h1 : "lock\n" ++ "noauth\n" ++ "refuse-eap\n" ++ "lcp-echo-failure 3\n" ++
      "lcp-echo-interval 2\n" ++ "maxfail 0\n" ++ "persist\n" ++ "plugin pptp.so\n" =
      "lock\nnoauth\nrefuse-eap\nlcp-echo-failure 3\nlcp-echo-interval 2\nmaxfail 0\npersist\nplugin pptp.so" ++ "\n" := by
    decide
  have h2 : lines ("lock\nnoauth\nrefuse-eap\nlcp-echo-failure 3\nlcp-echo-interval 2\nmaxfail 0\npersist\nplugin pptp.so" ++ "\n") =
      ["lock", "noauth", "refuse-eap", "lcp-echo-failure 3", "lcp-echo-interval 2", "maxfail 0",
        "persist", "plugin pptp.so"] := by
    decide
  rw [h1, String.append_assoc _ "pptp_server ", String.append_assoc _ ("pptp_server " ++ srv),
    lines_append_newline, h2]

theorem lines_options_text (e : Env) : lines (options_text e) = option_lines e := by
  unfold options_text
  rw [lines_concat _ (write_options_terminated e)]
  unfold write_options option_lines
  dsimp only
  simp only [List.map_append, List.flatten_append]
  have l1 : lines "defaultroute\n" = ["defaultroute"] := by decide
  have l2 : lines "usepeerdns\n" = ["usepeerdns"] := by decide
  have l3 : lines ("idle 0\n" ++ "ip-up-script /etc/vpn/ip-up\n" ++
      "ip-down-script /etc/vpn/ip-down\n" ++ "ipparam kelokepptpd\n") =
      ["idle 0", "ip-up-script /etc/vpn/ip-up", "ip-down-script /etc/vpn/ip-down",
        "ipparam kelokepptpd"] := by decide
  have l4 : lines "nomppe\n" = ["nomppe"] := by decide
  have l5 : lines "nomppe-40\n" = ["nomppe-40"] := by decide
  have l6 : lines "require-mppe-128\n" = ["require-mppe-128"] := by decide
  have l7 : lines "require-mppe\n" = ["require-mppe"] := by decide
  have l8 : lines "mppe-stateful\n" = ["mppe-stateful"] := by decide
  have l9 : lines "nomppe-stateful\n" = ["nomppe-stateful"] := by decide
  have hu : lines ("unit " ++ unit_value e ++ "\n") = ["unit " ++ unit_value e] := by
    unfold unit_value
    cases get_wan_proto e <;> decide
  refine append_eq (append_eq (append_eq (append_eq (append_eq (append_eq (append_eq
    (append_eq (append_eq (append_eq (append_eq ?_ ?_) ?_) ?_) ?_) ?_) ?_) ?_) ?_) ?_) ?_) ?_
  · simp only [List.map_cons, List.map_nil, List.flatten_cons, List.flatten_nil,
      List.append_nil, lines_header]
  · split <;> simp [l1]
  · split <;> simp [l2]
  · simp only [List.map_cons, List.map_nil, List.flatten_cons, List.flatten_nil,
      List.append_nil, l3]
  · simp only [List.map_cons, List.map_nil, List.flatten_cons, List.flatten_nil,
      List.append_nil]
    rfl
  · split
    · simp only [List.map_cons, List.map_nil, List.flatten_cons, List.flatten_nil,
        List.append_nil]
      rfl
    · rfl
  · unfold name_lines
    cases nvram_get e "pptp_client_username" <;> simp
  · unfold password_lines
    cases nvram_get e "pptp_client_passwd" <;> simp
  · split
    · simp [l4]
    · split
      · simp [l5, l6]
      · split <;> simp [l7]
  · split <;> simp [l8, l9]
  · simpa [unit_value] using hu
  · simp

theorem written_append (fd : String) (a b : List Event) :
    written fd (a ++ b) = written fd a ++ written fd b := by
  induction a with
  | nil => simp [written]
  | cons ev a ih =>
    have ih1 : written fd (a.append b) = written fd a ++ written fd b := ih
    cases ev with
    | fprintf fd1 t =>
      simp only [List.cons_append, written]
      split
      · rw [ih1, String.append_assoc]
      · exact ih1
    | _ => simpa only [List.cons_append, written] using ih1

theorem written_fprintf (fd : String) (ps : List String) :
    written fd (ps.map (Event.fprintf fd)) = ps.foldr (fun a b => a ++ b) "" := by
  induction ps with
  | nil => rfl
  | cons p ps ih => simp [written, ih]

theorem written_wire (fd : String) (p u1 u2 u3 u4 u5 m s1 s2 u6 s3 : Int) :
    written fd (wire_events p u1 u2 u3 u4 u5 m s1 s2 u6 s3) = "" := rfl

theorem written_stop (fd : String) (a b : Int) : written fd (stop_events a b) = "" := rfl

theorem written_config (e : Env) :
    written "/etc/vpn/options.vpn" (config_events e) = options_text e := by
  unfold config_events options_text
  rw [written, written_append, written_fprintf]
  · simp [written]
  · intro fd1 t h; cases h

/-- Whenever `start_pptp_client` opens the configuration file, the text it
writes to it is `options_text`. -/
theorem written_start (e : Env) (w : World)
    (hopen : Event.fopen "/etc/vpn/options.vpn" "w" (some "/etc/vpn/options.vpn") ∈
      (start_pptp_client e ⟨w, []⟩).trace) :
    written "/etc/vpn/options.vpn" (start_pptp_client e ⟨w, []⟩).trace = options_text e := by
  by_cases hrun : (pidof "pptpclient" ⟨w, []⟩).1 < 0
  · obtain ⟨p, u1, u2, u3, u4, u5, m, s1, s2, u6, s3, a, b, st, hc⟩ :=
      start_trace_cases e w hrun
    rcases hc with ⟨-, -, -, ht⟩ | ⟨-, -, ht⟩ | ⟨-, -, -, ht⟩ | ⟨-, -, -, -, ht⟩ | ⟨-, -, ht⟩
    · exfalso; rw [ht] at hopen; simp [wire_events, stop_events] at hopen
    · exfalso; rw [ht] at hopen; simp [wire_events, stop_events] at hopen
    · rw [ht]
      simp only [written_append, written_wire, written_stop, written_config,
        String.empty_append, String.append_empty]
    · rw [ht]
      simp only [written_append, written_wire, written_stop, written_config,
        String.empty_append, String.append_empty]
      simp [written]
    · rw [ht]
      simp only [written_append, written_wire, written_stop, written_config,
        String.empty_append, String.append_empty]
      simp [written]
  · exfalso
    have h0 : (pidof "pptpclient" ⟨w, []⟩).1 ≥ 0 := not_lt.mp hrun
    rw [start_eq, if_pos h0] at hopen
    simp at hopen

theorem lines_key_value_forall (P : String → Bool) (k v : String) (hk : '\n' ∉ k.data)
    (hfirst : ∀ l0 : String, P (k ++ l0) = false) (h0 : P "" = false)
    (hv : ∀ l ∈ lines v, P l = false) :
    ∀ x ∈ lines (k ++ v ++ "\n"), P x = false := by
  intro x hx
  rcases lines_key_value k v x hk hx with ⟨l0, rfl⟩ | h | rfl
  · exact hfirst l0
  · exact hv x h
  · exact h0

theorem lines_value_forall (P : String → Bool) (v : String) (h0 : P "" = false)
    (hv : ∀ l ∈ lines v, P l = false) :
    ∀ x ∈ lines (v ++ "\n"), P x = false := by
  intro x hx
  rcases lines_value v x hx with h | rfl
  · exact hv x h
  · exact h0

theorem filter_nil_of_forall (P : String → Bool) (l : List String)
    (h : ∀ x ∈ l, P x = false) : l.filter P = [] := by
  rw [List.filter_eq_nil_iff]
  intro x hx
  simp [h x hx]

theorem kv_filter_nil (s k v : String) (hk : '\n' ∉ k.data)
    (hlen : s.data.length ≤ k.data.length) (hsk : hasKey s k = false)
    (hs0 : hasKey s "" = false) (hv : ∀ l ∈ lines v, hasKey s l = false) :
    (lines (k ++ v ++ "\n")).filter (hasKey s) = [] :=
  filter_nil_of_forall _ _
    (lines_key_value_forall (hasKey s) k v hk
      (fun l0 => by rw [hasKey_append s k l0 hlen]; exact hsk) hs0 hv)

theorem mtu_value_lines (P : String → Bool) (e : Env) (h0 : P "1450" = false)
    (h : ∀ v, nvram_get e "pptp_client_mtu" = some v → ∀ l ∈ lines v, P l = false) :
    ∀ l ∈ lines (mtu_value e), P l = false := by
  have h1 : ∀ l ∈ lines "1450", P l = false := by
    intro l hl
    have : lines "1450" = ["1450"] := by decide
    rw [this, List.mem_singleton] at hl
    rw [hl]; exact h0
  unfold mtu_value
  split
  · exact h1
  · cases hg : nvram_get e "pptp_client_mtu" with
    | none => exact h1
    | some v => exact h v hg

theorem mru_value_lines (P : String → Bool) (e : Env) (h0 : P "1450" = false)
    (h : ∀ v, nvram_get e "pptp_client_mru" = some v → ∀ l ∈ lines v, P l = false) :
    ∀ l ∈ lines (mru_value e), P l = false := by
  have h1 : ∀ l ∈ lines "1450", P l = false := by
    intro l hl
    have : lines "1450" = ["1450"] := by decide
    rw [this, List.mem_singleton] at hl
    rw [hl]; exact h0
  unfold mru_value
  cases hg : nvram_get e "pptp_client_mru" with
  | none => exact h1
  | some v => exact h v hg

/-- Filtering the lines of the text with a test that rejects every fixed line
leaves what the test keeps of the lines that carry a setting's value. -/
theorem option_lines_filter (P : String → Bool) (e : Env)
    (hfix : ∀ l ∈ fixed_option_lines, P l = false) :
    (option_lines e).filter P =
      (lines ("pptp_server " ++ nvram_safe_get e "pptp_client_srvip" ++ "\n")).filter P ++
      (if nvram_get_int e "pptp_client_dfltroute" ≠ 0 then ["defaultroute"] else []).filter P ++
      (lines ("mtu " ++ mtu_value e ++ "\n")).filter P ++
      (if nvram_get_int e "pptp_client_mruenable" = 0 then
        lines ("mru " ++ mru_value e ++ "\n") else []).filter P ++
      (name_lines e).filter P ++ (password_lines e).filter P ++
      (lines (nvram_safe_get e "pptp_client_custom" ++ "\n")).filter P := by
  have hsub : ∀ l : List String, (∀ x ∈ l, x ∈ fixed_option_lines) → l.filter P = [] :=
    fun l h => filter_nil_of_forall P l (fun x hx => hfix x (h x hx))
  have p1 := hsub ["lock", "noauth", "refuse-eap", "lcp-echo-failure 3", "lcp-echo-interval 2",
      "maxfail 0", "persist", "plugin pptp.so"] (by decide)
  have p4 : (if nvram_get_int e "pptp_client_peerdns" ≠ 1 then ["usepeerdns"]
      else []).filter P = [] := by
    apply hsub
    split <;> decide
  have p5 := hsub ["idle 0", "ip-up-script /etc/vpn/ip-up", "ip-down-script /etc/vpn/ip-down",
      "ipparam kelokepptpd"] (by decide)
  have p10 : (if nvram_get_int e "pptp_client_crypt" = 1 then ["nomppe"]
      else if nvram_get_int e "pptp_client_crypt" = 2 then ["nomppe-40", "require-mppe-128"]
      else if nvram_get_int e "pptp_client_crypt" = 3 then ["require-mppe"]
      else []).filter P = [] := by
    apply hsub
    split
    · decide
    · split
      · decide
      · split <;> decide
  have p11 : (if nvram_get_int e "pptp_client_stateless" = 0 then ["mppe-stateful"]
      else ["nomppe-stateful"]).filter P = [] := by
    apply hsub
    split <;> decide
  have p12 : (["unit " ++ unit_value e] : List String).filter P = [] := by
    apply hsub
    unfold unit_value
    cases get_wan_proto e <;> decide
  unfold option_lines
  simp only [List.filter_append, p1, p4, p5, p10, p11, p12, List.append_nil, List.nil_append]

theorem get_lines_of_safe (P : String → Bool) (e : Env) (key u : String)
    (hg : nvram_get e key = some u)
    (h : ∀ l ∈ lines (nvram_safe_get e key), P l = false) : ∀ l ∈ lines u, P l = false := by
  have : nvram_safe_get e key = u := by
    unfold nvram_safe_get; rw [hg]
  rw [this] at h
  exact h

theorem hasKey_filter_single (k v : String) (hk : '\n' ∉ k.data) (hv : '\n' ∉ v.data)
    (hkk : hasKey k k = true) :
    (lines (k ++ v ++ "\n")).filter (hasKey k) = [k ++ v] := by
  rw [lines_key_value_plain k v hk hv]
  have : hasKey k (k ++ v) = true := by
    rw [hasKey_append _ _ _ (le_refl _)]; exact hkk
  simp [List.filter, this]

/-- C8 fails as stated: with the custom options `mtu 1400` the text written
to `/etc/vpn/options.vpn` has two lines of the form `mtu V`. -/
theorem custom_adds_mtu_line :
    Event.fopen "/etc/vpn/options.vpn" "w" (some "/etc/vpn/options.vpn") ∈
      (start_pptp_client env_custom_mtu ⟨w_idle, []⟩).trace ∧
    (lines (written "/etc/vpn/options.vpn"
      (start_pptp_client env_custom_mtu ⟨w_idle, []⟩).trace)).filter (hasKey "mtu ") =
      ["mtu 1450", "mtu 1400"] := by
  decide

/-- C8, amended. Whenever `start_pptp_client` opens the configuration file,
and the MTU value it writes has no newline in it, and no line of the server
address, MRU override, user name, password or custom options has the form
`mtu V`, the text written to `/etc/vpn/options.vpn` contains exactly one line
of the form `mtu V`; `V` is the stored MTU override when the MTU-enable flag
is non-zero and the override is present, and `1450` in every other case. -/
theorem mtu_line (e : Env) (w : World)
    (hopen : Event.fopen "/etc/vpn/options.vpn" "w" (some "/etc/vpn/options.vpn") ∈
      (start_pptp_client e ⟨w, []⟩).trace)
    (hval : '\n' ∉ (mtu_value e).data)
    (hothers : ∀ key ∈ mtu_other_keys, ∀ l ∈ lines (nvram_safe_get e key),
      hasKey "mtu " l = false) :
    (lines (written "/etc/vpn/options.vpn" (start_pptp_client e ⟨w, []⟩).trace)).filter
        (hasKey "mtu ") = ["mtu " ++ mtu_value e] ∧
    (nvram_get_int e "pptp_client_mtuenable" ≠ 0 →
      ∀ v, nvram_get e "pptp_client_mtu" = some v → mtu_value e = v) ∧
    (nvram_get_int e "pptp_client_mtuenable" = 0 ∨ nvram_get e "pptp_client_mtu" = none →
      mtu_value e = "1450") := by
  refine ⟨?_, ?_, ?_⟩
  · rw [written_start e w hopen, lines_options_text,
      option_lines_filter (hasKey "mtu ") e (by decide)]
    have h_srv := hothers "pptp_client_srvip" (by decide)
    have h_mru := hothers "pptp_client_mru" (by decide)
    have h_usr := hothers "pptp_client_username" (by decide)
    have h_pwd := hothers "pptp_client_passwd" (by decide)
    have h_cus := hothers "pptp_client_custom" (by decide)
    have p1 := kv_filter_nil "mtu " "pptp_server " _ (by decide) (by decide) (by decide)
      (by decide) h_srv
    have p2 : (if nvram_get_int e "pptp_client_dfltroute" ≠ 0 then ["defaultroute"]
        else []).filter (hasKey "mtu ") = [] := by
      split <;> decide
    have p3 := hasKey_filter_single "mtu " (mtu_value e) (by decide) hval (by decide)
    have p4 : (if nvram_get_int e "pptp_client_mruenable" = 0 then
        lines ("mru " ++ mru_value e ++ "\n") else []).filter (hasKey "mtu ") = [] := by
      split
      · exact kv_filter_nil "mtu " "mru " _ (by decide) (by decide) (by decide) (by decide)
          (mru_value_lines _ e (by decide) (fun v hg => get_lines_of_safe _ e _ v hg h_mru))
      · rfl
    have p5 : (name_lines e).filter (hasKey "mtu ") = [] := by
      unfold name_lines
      cases hg : nvram_get e "pptp_client_username" with
      | none => rfl
      | some u =>
        exact kv_filter_nil "mtu " "name " _ (by decide) (by decide) (by decide) (by decide)
          (get_lines_of_safe _ e _ u hg h_usr)
    have p6 : (password_lines e).filter (hasKey "mtu ") = [] := by
      unfold password_lines
      cases hg : nvram_get e "pptp_client_passwd" with
      | none => rfl
      | some u =>
        exact kv_filter_nil "mtu " "password " _ (by decide) (by decide) (by decide)
          (by decide) (get_lines_of_safe _ e _ u hg h_pwd)
    have p7 : (lines (nvram_safe_get e "pptp_client_custom" ++ "\n")).filter
        (hasKey "mtu ") = [] :=
      filter_nil_of_forall _ _ (lines_value_forall _ _ (by decide) h_cus)
    rw [p1, p2, p3, p4, p5, p6, p7]
    rfl
  · intro hen v hv
    unfold mtu_value
    rw [if_neg hen, hv]
  · intro h
    unfold mtu_value
    rcases h with h | h
    · rw [if_pos h]
    · rw [h]; split <;> rfl

/-- C8 amended, at a concrete input: the MTU override 1380 is enabled. -/
theorem mtu_line_witness :
    Event.fopen "/etc/vpn/options.vpn" "w" (some "/etc/vpn/options.vpn") ∈
      (start_pptp_client env_sized ⟨w_idle, []⟩).trace ∧
    (lines (written "/etc/vpn/options.vpn"
      (start_pptp_client env_sized ⟨w_idle, []⟩).trace)).filter (hasKey "mtu ") =
      ["mtu " ++ mtu_value env_sized] ∧
    mtu_value env_sized = "1380" :=
  ⟨by decide, (mtu_line env_sized w_idle (by decide) (by decide) (by decide)).1, by decide⟩

/-- C9 fails as stated: with the MRU-enable flag set and the custom options
`mru 1400`, the rendered configuration has a line of the form `mru V`. -/
theorem custom_adds_mru_line :
    Event.fopen "/etc/vpn/options.vpn" "w" (some "/etc/vpn/options.vpn") ∈
      (start_pptp_client env_custom_mru ⟨w_idle, []⟩).trace ∧
    nvram_get_int env_custom_mru "pptp_client_mruenable" = 1 ∧
    (lines (written "/etc/vpn/options.vpn"
      (start_pptp_client env_custom_mru ⟨w_idle, []⟩).trace)).filter (hasKey "mru ") =
      ["mru 1400"] := by
  decide

/-- C9, amended. Whenever `start_pptp_client` opens the configuration file,
and the MRU value has no newline in it, and no line of the server address,
MTU override, user name, password or custom options has the form `mru V`: when
the MRU-enable flag is zero the text has exactly one line of the form `mru V`,
with `V` the stored MRU override if present and `1450` otherwise; when the
flag is non-zero the text has no such line, whatever the override. -/
theorem mru_line (e : Env) (w : World)
    (hopen : Event.fopen "/etc/vpn/options.vpn" "w" (some "/etc/vpn/options.vpn") ∈
      (start_pptp_client e ⟨w, []⟩).trace)
    (hval : '\n' ∉ (mru_value e).data)
    (hothers : ∀ key ∈ mru_other_keys, ∀ l ∈ lines (nvram_safe_get e key),
      hasKey "mru " l = false) :
    (nvram_get_int e "pptp_client_mruenable" = 0 →
      (lines (written "/etc/vpn/options.vpn" (start_pptp_client e ⟨w, []⟩).trace)).filter
          (hasKey "mru ") = ["mru " ++ mru_value e] ∧
      (∀ v, nvram_get e "pptp_client_mru" = some v → mru_value e = v) ∧
      (nvram_get e "pptp_client_mru" = none → mru_value e = "1450")) ∧
    (nvram_get_int e "pptp_client_mruenable" ≠ 0 →
      (lines (written "/etc/vpn/options.vpn" (start_pptp_client e ⟨w, []⟩).trace)).filter
          (hasKey "mru ") = []) := by
  have h_srv := hothers "pptp_client_srvip" (by decide)
  have h_mtu := hothers "pptp_client_mtu" (by decide)
  have h_usr := hothers "pptp_client_username" (by decide)
  have h_pwd := hothers "pptp_client_passwd" (by decide)
  have h_cus := hothers "pptp_client_custom" (by decide)
  have p1 := kv_filter_nil "mru " "pptp_server " _ (by decide) (by decide) (by decide)
    (by decide) h_srv
  have p2 : (if nvram_get_int e "pptp_client_dfltroute" ≠ 0 then ["defaultroute"]
      else []).filter (hasKey "mru ") = [] := by
    split <;> decide
  have p3 := kv_filter_nil "mru " "mtu " _ (by decide) (by decide) (by decide) (by decide)
    (mtu_value_lines _ e (by decide) (fun v hg => get_lines_of_safe _ e _ v hg h_mtu))
  have p5 : (name_lines e).filter (hasKey "mru ") = [] := by
    unfold name_lines
    cases hg : nvram_get e "pptp_client_username" with
    | none => rfl
    | some u =>
      exact kv_filter_nil "mru " "name " _ (by decide) (by decide) (by decide) (by decide)
        (get_lines_of_safe _ e _ u hg h_usr)
  have p6 : (password_lines e).filter (hasKey "mru ") = [] := by
    unfold password_lines
    cases hg : nvram_get e "pptp_client_passwd" with
    | none => rfl
    | some u =>
      exact kv_filter_nil "mru " "password " _ (by decide) (by decide) (by decide)
        (by decide) (get_lines_of_safe _ e _ u hg h_pwd)
  have p7 : (lines (nvram_safe_get e "pptp_client_custom" ++ "\n")).filter
      (hasKey "mru ") = [] :=
    filter_nil_of_forall _ _ (lines_value_forall _ _ (by decide) h_cus)
  rw [written_start e w hopen, lines_options_text,
    option_lines_filter (hasKey "mru ") e (by decide), p1, p2, p3, p5, p6, p7]
  refine ⟨fun hen => ⟨?_, fun v hv => ?_, fun hv => ?_⟩, fun hen => ?_⟩
  · rw [if_pos hen, hasKey_filter_single "mru " (mru_value e) (by decide) hval (by decide)]
    rfl
  · unfold mru_value; rw [hv]
  · unfold mru_value; rw [hv]
  · rw [if_neg hen]
    rfl

/-- C9 amended, at a concrete input: MRU-enable absent, override 1400. -/
theorem mru_line_witness :
    Event.fopen "/etc/vpn/options.vpn" "w" (some "/etc/vpn/options.vpn") ∈
      (start_pptp_client env_ok ⟨w_idle, []⟩).trace ∧
    nvram_get_int env_ok "pptp_client_mruenable" = 0 ∧
    (lines (written "/etc/vpn/options.vpn"
      (start_pptp_client env_ok ⟨w_idle, []⟩).trace)).filter (hasKey "mru ") =
      ["mru " ++ mru_value env_ok] ∧
    mru_value env_ok = "1400" :=
  ⟨by decide, by decide,
   ((mru_line env_ok w_idle (by decide) (by decide) (by decide)).1 (by decide)).1, by decide⟩

theorem key_append_ne (k d l0 : String) (hkk : hasKey k k = true) (hkd : hasKey k d = false) :
    (decide (k ++ l0 = d)) = false := by
  rw [decide_eq_false_iff_not]
  intro h
  have h1 := hasKey_append k k l0 (le_refl _)
  rw [h, hkd, hkk] at h1
  cases h1

theorem is_line_forall (d : String) (l : List String) (h : d ∉ l) :
    ∀ x ∈ l, (fun x => decide (x = d)) x = false := by
  intro x hx
  simp only [decide_eq_false_iff_not]
  intro hxd
  exact h (hxd ▸ hx)

theorem not_mem_of_filter_nil (d : String) (l : List String)
    (h : l.filter (fun x => decide (x = d)) = []) : d ∉ l := by
  intro hd
  rw [List.filter_eq_nil_iff] at h
  have := h d hd
  simp at this

/-- C10. Whenever `start_pptp_client` opens the configuration file with
default-route = false, MTU-enable = false, MRU-enable = false, MRU override
1400, encryption mode none (`pptp_client_crypt` = 1) and stateless = false,
and the server address, credentials and custom string have no line
`defaultroute`, the text written contains the lines `mtu 1450`, `mru 1400`,
`nomppe` and `mppe-stateful`, and no line `defaultroute` (whatever the
peer-DNS setting). -/
theorem render_example (e : Env) (w : World)
    (hopen : Event.fopen "/etc/vpn/options.vpn" "w" (some "/etc/vpn/options.vpn") ∈
      (start_pptp_client e ⟨w, []⟩).trace)
    (h_dflt : nvram_get_int e "pptp_client_dfltroute" = 0)
    (h_mtuen : nvram_get_int e "pptp_client_mtuenable" = 0)
    (h_mruen : nvram_get_int e "pptp_client_mruenable" = 0)
    (h_mru : nvram_get e "pptp_client_mru" = some "1400")
    (h_crypt : nvram_get_int e "pptp_client_crypt" = 1)
    (h_stateless : nvram_get_int e "pptp_client_stateless" = 0)
    (h_free : ∀ key ∈ free_text_keys, "defaultroute" ∉ lines (nvram_safe_get e key)) :
    "mtu 1450" ∈ lines (written "/etc/vpn/options.vpn" (start_pptp_client e ⟨w, []⟩).trace) ∧
    "mru 1400" ∈ lines (written "/etc/vpn/options.vpn" (start_pptp_client e ⟨w, []⟩).trace) ∧
    "nomppe" ∈ lines (written "/etc/vpn/options.vpn" (start_pptp_client e ⟨w, []⟩).trace) ∧
    "mppe-stateful" ∈
      lines (written "/etc/vpn/options.vpn" (start_pptp_client e ⟨w, []⟩).trace) ∧
    "defaultroute" ∉
      lines (written "/etc/vpn/options.vpn" (start_pptp_client e ⟨w, []⟩).trace) := by
  rw [written_start e w hopen, lines_options_text]
  have hmtu : lines ("mtu " ++ mtu_value e ++ "\n") = ["mtu 1450"] := by
    unfold mtu_value
    rw [if_pos h_mtuen]
    decide
  have hmru : lines ("mru " ++ mru_value e ++ "\n") = ["mru 1400"] := by
    unfold mru_value
    rw [h_mru]
    decide
  refine ⟨?_, ?_, ?_, ?_, ?_⟩
  · unfold option_lines
    simp only [List.mem_append, hmtu, List.mem_singleton, true_or, or_true]
  · unfold option_lines
    simp only [List.mem_append, hmru, h_mruen, if_true, List.mem_singleton, true_or, or_true]
  · unfold option_lines
    simp only [List.mem_append, h_crypt, if_true, List.mem_singleton, true_or, or_true]
  · unfold option_lines
    simp only [List.mem_append, h_stateless, if_true, List.mem_singleton, true_or, or_true]
  · apply not_mem_of_filter_nil
    have h_srv := is_line_forall _ _ (h_free "pptp_client_srvip" (by decide))
    have h_usr := is_line_forall _ _ (h_free "pptp_client_username" (by decide))
    have h_pwd := is_line_forall _ _ (h_free "pptp_client_passwd" (by decide))
    have h_cus := is_line_forall _ _ (h_free "pptp_client_custom" (by decide))
    have p1 : (lines ("pptp_server " ++ nvram_safe_get e "pptp_client_srvip" ++ "\n")).filter
        (fun x => decide (x = "defaultroute")) = [] :=
      filter_nil_of_forall _ _ (lines_key_value_forall _ "pptp_server " _ (by decide)
        (fun l0 => key_append_ne _ _ l0 (by decide) (by decide)) (by decide) h_srv)
    have p5 : (name_lines e).filter (fun x => decide (x = "defaultroute")) = [] := by
      unfold name_lines
      cases hg : nvram_get e "pptp_client_username" with
      | none => rfl
      | some u =>
        exact filter_nil_of_forall _ _ (lines_key_value_forall _ "name " _ (by decide)
          (fun l0 => key_append_ne _ _ l0 (by decide) (by decide)) (by decide)
          (get_lines_of_safe _ e _ u hg h_usr))
    have p6 : (password_lines e).filter (fun x => decide (x = "defaultroute")) = [] := by
      unfold password_lines
      cases hg : nvram_get e "pptp_client_passwd" with
      | none => rfl
      | some u =>
        exact filter_nil_of_forall _ _ (lines_key_value_forall _ "password " _ (by decide)
          (fun l0 => key_append_ne _ _ l0 (by decide) (by decide)) (by decide)
          (get_lines_of_safe _ e _ u hg h_pwd))
    have p7 : (lines (nvram_safe_get e "pptp_client_custom" ++ "\n")).filter
        (fun x => decide (x = "defaultroute")) = [] :=
      filter_nil_of_forall _ _ (lines_value_forall _ _ (by decide) h_cus)
    rw [option_lines_filter _ e (by decide), p1, p5, p6, p7, hmtu, hmru, if_pos h_mruen,
      if_neg (not_not.mpr h_dflt)]
    decide

/-- C10, at a concrete input: the parameter set of the example on the idle
system. -/
theorem render_example_witness :
    Event.fopen "/etc/vpn/options.vpn" "w" (some "/etc/vpn/options.vpn") ∈
      (start_pptp_client env_ok ⟨w_idle, []⟩).trace ∧
    "mru 1400" ∈
      lines (written "/etc/vpn/options.vpn" (start_pptp_client env_ok ⟨w_idle, []⟩).trace) ∧
    "defaultroute" ∉
      lines (written "/etc/vpn/options.vpn" (start_pptp_client env_ok ⟨w_idle, []⟩).trace) :=
  ⟨by decide,
   (render_example env_ok w_idle (by decide) (by decide) (by decide) (by decide) (by decide)
      (by decide) (by decide) (by decide)).2.1,
   (render_example env_ok w_idle (by decide) (by decide) (by decide) (by decide) (by decide)
      (by decide) (by decide) (by decide)).2.2.2.2⟩

theorem write_options_pieces (e : Env) :
    (write_options e).2 =
      directive_pieces e ++ [nvram_safe_get e "pptp_client_custom" ++ "\n"] := by
  unfold write_options directive_pieces
  dsimp only
  have h1 : "lock\n" ++ "noauth\n" ++ "refuse-eap\n" ++ "lcp-echo-failure 3\n" ++
      "lcp-echo-interval 2\n" ++ "maxfail 0\n" ++ "persist\n" ++ "plugin pptp.so\n" ++
      "pptp_server " =
      "lock\nnoauth\nrefuse-eap\nlcp-echo-failure 3\nlcp-echo-interval 2\nmaxfail 0\npersist\nplugin pptp.so\npptp_server " := by
    decide
  have h4 : "idle 0\n" ++ "ip-up-script /etc/vpn/ip-up\n" ++
      "ip-down-script /etc/vpn/ip-down\n" ++ "ipparam kelokepptpd\n" =
      "idle 0\nip-up-script /etc/vpn/ip-up\nip-down-script /etc/vpn/ip-down\nipparam kelokepptpd\n" := by
    decide
  refine append_eq (append_eq (append_eq (append_eq (append_eq (append_eq (append_eq
    (append_eq (append_eq (append_eq (append_eq ?_ ?_) ?_) ?_) ?_) ?_) ?_) ?_) ?_) ?_) ?_) rfl
  · unfold header_piece; rw [h1]
  · rfl
  · rfl
  · rw [h4]
  · rfl
  · rfl
  · unfold name_piece
    cases nvram_get e "pptp_client_username" <;> rfl
  · unfold password_piece
    cases nvram_get e "pptp_client_passwd" <;> rfl
  · rfl
  · rfl
  · rfl

theorem emitted_append (fd : String) (a b : List Event) :
    emitted fd (a ++ b) = emitted fd a ++ emitted fd b := by
  induction a with
  | nil => simp [emitted]
  | cons ev a ih =>
    have ih1 : emitted fd (a.append b) = emitted fd a ++ emitted fd b := ih
    cases ev with
    | fprintf fd1 t =>
      simp only [List.cons_append, emitted]
      split
      · rw [ih1, List.cons_append]
      · exact ih1
    | _ => simpa only [List.cons_append, emitted] using ih1

theorem emitted_fprintf (fd : String) (ps : List String) :
    emitted fd (ps.map (Event.fprintf fd)) = ps := by
  induction ps with
  | nil => rfl
  | cons p ps ih => simp [emitted, ih]

theorem emitted_wire (fd : String) (p u1 u2 u3 u4 u5 m s1 s2 u6 s3 : Int) :
    emitted fd (wire_events p u1 u2 u3 u4 u5 m s1 s2 u6 s3) = [] := rfl

theorem emitted_stop (fd : String) (a b : Int) : emitted fd (stop_events a b) = [] := rfl

theorem emitted_config (e : Env) :
    emitted "/etc/vpn/options.vpn" (config_events e) = (write_options e).2 := by
  unfold config_events
  rw [emitted, emitted_append, emitted_fprintf]
  · simp [emitted]
  · intro fd1 t h; cases h

/-- Whenever `start_pptp_client` opens the configuration file, its `fprintf`
outputs are those of `write_options`, in order. -/
theorem emitted_start (e : Env) (w : World)
    (hopen : Event.fopen "/etc/vpn/options.vpn" "w" (some "/etc/vpn/options.vpn") ∈
      (start_pptp_client e ⟨w, []⟩).trace) :
    emitted "/etc/vpn/options.vpn" (start_pptp_client e ⟨w, []⟩).trace =
      directive_pieces e ++ [nvram_safe_get e "pptp_client_custom" ++ "\n"] := by
  rw [← write_options_pieces]
  by_cases hrun : (pidof "pptpclient" ⟨w, []⟩).1 < 0
  · obtain ⟨p, u1, u2, u3, u4, u5, m, s1, s2, u6, s3, a, b, st, hc⟩ :=
      start_trace_cases e w hrun
    rcases hc with ⟨-, -, -, ht⟩ | ⟨-, -, ht⟩ | ⟨-, -, -, ht⟩ | ⟨-, -, -, -, ht⟩ | ⟨-, -, ht⟩
    · exfalso; rw [ht] at hopen; simp [wire_events, stop_events] at hopen
    · exfalso; rw [ht] at hopen; simp [wire_events, stop_events] at hopen
    · rw [ht]
      simp only [emitted_append, emitted_wire, emitted_stop, emitted_config,
        List.nil_append, List.append_nil]
    · rw [ht]
      simp only [emitted_append, emitted_wire, emitted_stop, emitted_config,
        List.nil_append, List.append_nil]
      simp [emitted]
    · rw [ht]
      simp only [emitted_append, emitted_wire, emitted_stop, emitted_config,
        List.nil_append, List.append_nil]
      simp [emitted]
  · exfalso
    have h0 : (pidof "pptpclient" ⟨w, []⟩).1 ≥ 0 := not_lt.mp hrun
    rw [start_eq, if_pos h0] at hopen
    simp at hopen

theorem emitted_start_dropLast (e : Env) (w : World)
    (hopen : Event.fopen "/etc/vpn/options.vpn" "w" (some "/etc/vpn/options.vpn") ∈
      (start_pptp_client e ⟨w, []⟩).trace) :
    (emitted "/etc/vpn/options.vpn" (start_pptp_client e ⟨w, []⟩).trace).dropLast =
      directive_pieces e := by
  rw [emitted_start e w hopen, List.dropLast_concat]

/-- An output `k ++ v ++ "\n"` differs from every text that does not start with `k`. -/
theorem piece_ne (k v d : String) (hkk : hasKey k k = true) (hkd : hasKey k d = false) :
    k ++ v ++ "\n" ≠ d := by
  have h := key_append_ne k d (v ++ "\n") hkk hkd
  rw [decide_eq_false_iff_not, ← String.append_assoc] at h
  exact h

/-- Filtering the outputs in front of the custom line for membership in a list
`D` of texts, none of which starts like an output that carries a value, only
keeps outputs of the statements that print fixed text. -/
theorem directive_pieces_filter (D : List String) (e : Env)
    (hD : ∀ d ∈ D, ∀ k ∈ value_keys, hasKey k d = false) :
    (directive_pieces e).filter (fun x => D.contains x) =
      ((if nvram_get_int e "pptp_client_dfltroute" ≠ 0 then ["defaultroute\n"] else []) ++
       (if nvram_get_int e "pptp_client_peerdns" ≠ 1 then ["usepeerdns\n"] else []) ++
       ["idle 0\nip-up-script /etc/vpn/ip-up\nip-down-script /etc/vpn/ip-down\nipparam kelokepptpd\n"] ++
       (if nvram_get_int e "pptp_client_crypt" = 1 then ["nomppe\n"]
        else if nvram_get_int e "pptp_client_crypt" = 2 then
          ["nomppe-40\n", "require-mppe-128\n"]
        else if nvram_get_int e "pptp_client_crypt" = 3 then ["require-mppe\n"]
        else []) ++
       (if nvram_get_int e "pptp_client_stateless" = 0 then ["mppe-stateful\n"]
        else ["nomppe-stateful\n"]) ++
       ["unit " ++ unit_value e ++ "\n"]).filter (fun x => D.contains x) := by
  have hne : ∀ (k v : String), k ∈ value_keys → hasKey k k = true →
      [k ++ v ++ "\n"].filter (fun x => D.contains x) = [] := by
    intro k v hk hkk
    rw [List.filter_eq_nil_iff]
    intro x hx
    rw [List.mem_singleton] at hx
    subst hx
    intro hc
    have hmem : k ++ v ++ "\n" ∈ D := by simpa using hc
    exact piece_ne k v _ hkk (hD _ hmem k hk) rfl
  have p1 : [header_piece (nvram_safe_get e "pptp_client_srvip")].filter
      (fun x => D.contains x) = [] := by
    have := hne "lock" ("\nnoauth\nrefuse-eap\nlcp-echo-failure 3\nlcp-echo-interval 2\nmaxfail 0\npersist\nplugin pptp.so\npptp_server " ++ nvram_safe_get e "pptp_client_srvip") (by decide) (by decide)
    have h2 : header_piece (nvram_safe_get e "pptp_client_srvip") =
        "lock" ++ ("\nnoauth\nrefuse-eap\nlcp-echo-failure 3\nlcp-echo-interval 2\nmaxfail 0\npersist\nplugin pptp.so\npptp_server " ++ nvram_safe_get e "pptp_client_srvip") ++ "\n" := by
      unfold header_piece
      rw [← String.append_assoc]
      congr 2
    rw [h2]; exact this
  have p5 := hne "mtu " (mtu_value e) (by decide) (by decide)
  have p6 : (if nvram_get_int e "pptp_client_mruenable" = 0 then ["mru " ++ mru_value e ++ "\n"]
      else []).filter (fun x => D.contains x) = [] := by
    split
    · exact hne "mru " (mru_value e) (by decide) (by decide)
    · rfl
  have p7 : (name_piece e).filter (fun x => D.contains x) = [] := by
    unfold name_piece
    cases nvram_get e "pptp_client_username" with
    | none => rfl
    | some u => exact hne "name " u (by decide) (by decide)
  have p8 : (password_piece e).filter (fun x => D.contains x) = [] := by
    unfold password_piece
    cases nvram_get e "pptp_client_passwd" with
    | none => rfl
    | some u => exact hne "password " u (by decide) (by decide)
  unfold directive_pieces
  simp only [List.filter_append, p1, p5, p6, p7, p8, List.nil_append, List.append_nil]

theorem unit_piece_filter (D : List String) (e : Env)
    (h0 : D.contains "unit 0\n" = false) (h1 : D.contains "unit 1\n" = false) :
    ["unit " ++ unit_value e ++ "\n"].filter (fun x => D.contains x) = [] := by
  have hu : "unit " ++ unit_value e ++ "\n" = "unit 0\n" ∨
      "unit " ++ unit_value e ++ "\n" = "unit 1\n" := by
    unfold unit_value
    cases get_wan_proto e <;> decide
  rcases hu with hu | hu
  · rw [hu, List.filter_cons_of_neg (by rw [h0]; exact Bool.false_ne_true)]
    rfl
  · rw [hu, List.filter_cons_of_neg (by rw [h1]; exact Bool.false_ne_true)]
    rfl

/-- Whenever `start_pptp_client` opens the configuration file, the
encryption directives among its `fprintf` outputs, the custom line (the last
output) left aside, are fixed by the integer `m = pptp_client_crypt`: exactly
`nomppe` for `m = 1`; exactly `nomppe-40` then `require-mppe-128` for `m = 2`;
exactly `require-mppe` for `m = 3`; none for every other value. -/
theorem encryption_by_mode (e : Env) (w : World)
    (hopen : Event.fopen "/etc/vpn/options.vpn" "w" (some "/etc/vpn/options.vpn") ∈
      (start_pptp_client e ⟨w, []⟩).trace) :
    ((emitted "/etc/vpn/options.vpn" (start_pptp_client e ⟨w, []⟩).trace).dropLast).filter
        (fun x => encryption_directives.contains x) =
      (if nvram_get_int e "pptp_client_crypt" = 1 then ["nomppe\n"]
       else if nvram_get_int e "pptp_client_crypt" = 2 then
         ["nomppe-40\n", "require-mppe-128\n"]
       else if nvram_get_int e "pptp_client_crypt" = 3 then ["require-mppe\n"]
       else []) := by
  rw [emitted_start_dropLast e w hopen, directive_pieces_filter _ e (by decide)]
  have p1 : (if nvram_get_int e "pptp_client_dfltroute" ≠ 0 then ["defaultroute\n"]
      else []).filter (fun x => encryption_directives.contains x) = [] := by
    split <;> decide
  have p2 : (if nvram_get_int e "pptp_client_peerdns" ≠ 1 then ["usepeerdns\n"]
      else []).filter (fun x => encryption_directives.contains x) = [] := by
    split <;> decide
  have p3 : ["idle 0\nip-up-script /etc/vpn/ip-up\nip-down-script /etc/vpn/ip-down\nipparam kelokepptpd\n"].filter
      (fun x => encryption_directives.contains x) = [] := by
    decide
  have p4 : (if nvram_get_int e "pptp_client_crypt" = 1 then ["nomppe\n"]
      else if nvram_get_int e "pptp_client_crypt" = 2 then
        ["nomppe-40\n", "require-mppe-128\n"]
      else if nvram_get_int e "pptp_client_crypt" = 3 then ["require-mppe\n"]
      else []).filter (fun x => encryption_directives.contains x) =
      (if nvram_get_int e "pptp_client_crypt" = 1 then ["nomppe\n"]
       else if nvram_get_int e "pptp_client_crypt" = 2 then
         ["nomppe-40\n", "require-mppe-128\n"]
       else if nvram_get_int e "pptp_client_crypt" = 3 then ["require-mppe\n"]
       else []) := by
    split
    · decide
    · split
      · decide
      · split <;> decide
  have p5 : (if nvram_get_int e "pptp_client_stateless" = 0 then ["mppe-stateful\n"]
      else ["nomppe-stateful\n"]).filter (fun x => encryption_directives.contains x) = [] := by
    split <;> decide
  have p6 := unit_piece_filter encryption_directives e (by decide) (by decide)
  simp only [List.filter_append, p1, p2, p3, p4, p5, p6, List.nil_append, List.append_nil]

/-- The encryption outputs at a concrete input: encryption mode 2. -/
theorem encryption_by_mode_witness :
    Event.fopen "/etc/vpn/options.vpn" "w" (some "/etc/vpn/options.vpn") ∈
      (start_pptp_client env_routed ⟨w_idle, []⟩).trace ∧
    nvram_get_int env_routed "pptp_client_crypt" = 2 ∧
    ((emitted "/etc/vpn/options.vpn"
        (start_pptp_client env_routed ⟨w_idle, []⟩).trace).dropLast).filter
        (fun x => encryption_directives.contains x) =
      (if nvram_get_int env_routed "pptp_client_crypt" = 1 then ["nomppe\n"]
       else if nvram_get_int env_routed "pptp_client_crypt" = 2 then
         ["nomppe-40\n", "require-mppe-128\n"]
       else if nvram_get_int env_routed "pptp_client_crypt" = 3 then ["require-mppe\n"]
       else []) :=
  ⟨by decide, by decide, encryption_by_mode env_routed w_idle (by decide)⟩

/-- C20. The tokenising loops stay inside their arrays: the command of
`start_pptp_client` has exactly 3 tokens, the loop stores them at indices 0 to
2 and `NULL` at index 3 of the 5-slot `argv`; the command of
`stop_pptp_client` has exactly 6 tokens, stored at indices 0 to 5, with `NULL`
at index 6, the last slot of the 7-slot `argv`; and both commands with their
terminating NUL fit in the buffer of `BUF_SIZE` = 128 bytes. -/
theorem argv_in_bounds :
    ((strtok_all start_command).length = 3 ∧
      argv_stores start_command =
        [(0, some "/etc/vpn/pptpclient"), (1, some "file"), (2, some "/etc/vpn/options.vpn"),
          (3, none)] ∧
      (∀ s ∈ argv_stores start_command, s.1 < start_argv_slots)) ∧
    ((strtok_all stop_command).length = 6 ∧
      argv_stores stop_command =
        [(0, some "rm"), (1, some "-rf"), (2, some "/etc/vpn/pptpclient"),
          (3, some "/etc/vpn/ip-down"), (4, some "/etc/vpn/ip-up"),
          (5, some "/etc/vpn/options.vpn"), (6, none)] ∧
      (∀ s ∈ argv_stores stop_command, s.1 < stop_argv_slots) ∧
      (6, none) ∈ argv_stores stop_command ∧ 6 = stop_argv_slots - 1) ∧
    (sprintf_bytes start_command ≤ BUF_SIZE ∧ sprintf_bytes stop_command ≤ BUF_SIZE) := by
  decide

theorem foldr_append_init (A : List String) (s : String) :
    A.foldr (fun a b => a ++ b) s = A.foldr (fun a b => a ++ b) "" ++ s := by
  induction A with
  | nil => simp
  | cons a A ih => simp only [List.foldr_cons]; rw [ih, String.append_assoc]

theorem concat_snoc2 (A : List String) (u c : String) :
    (A ++ [u] ++ [c]).foldr (fun a b => a ++ b) "" =
      A.foldr (fun a b => a ++ b) "" ++ u ++ c := by
  rw [List.foldr_append, List.foldr_append, foldr_append_init]
  simp only [List.foldr_cons, List.foldr_nil, String.append_empty, String.append_assoc]

theorem directive_pieces_unit (e : Env) :
    ∃ A, directive_pieces e = A ++ ["unit " ++ unit_value e ++ "\n"] :=
  ⟨_, rfl⟩

theorem unit_value_cases (e : Env) : unit_value e = "0" ∨ unit_value e = "1" := by
  unfold unit_value
  cases get_wan_proto e <;> simp

theorem safe_get_absent (e : Env) (k : String) (h : nvram_get e k = none ∨ nvram_get e k = some "") :
    nvram_safe_get e k = "" := by
  unfold nvram_safe_get
  rcases h with h | h <;> rw [h]

/-- C16. Whenever `start_pptp_client` opens the configuration file, the text
it writes ends with the line `unit N` (N is 0 or 1) followed directly by the
custom options string, copied unchanged, and one newline; when the custom
parameter is absent or empty the last line of the text is empty; and `unit N`
is a line of its own, the one right ahead of the lines of the custom string. -/
theorem custom_line_last (e : Env) (w : World)
    (hopen : Event.fopen "/etc/vpn/options.vpn" "w" (some "/etc/vpn/options.vpn") ∈
      (start_pptp_client e ⟨w, []⟩).trace) :
    (∃ pre : String,
      written "/etc/vpn/options.vpn" (start_pptp_client e ⟨w, []⟩).trace =
        pre ++ ("unit " ++ unit_value e ++ "\n") ++
          (nvram_safe_get e "pptp_client_custom" ++ "\n")) ∧
    (unit_value e = "0" ∨ unit_value e = "1") ∧
    ((nvram_get e "pptp_client_custom" = none ∨ nvram_get e "pptp_client_custom" = some "") →
      (lines (written "/etc/vpn/options.vpn" (start_pptp_client e ⟨w, []⟩).trace)).getLast? =
        some "") ∧
    (∃ body : List String,
      lines (written "/etc/vpn/options.vpn" (start_pptp_client e ⟨w, []⟩).trace) =
        body ++ ["unit " ++ unit_value e] ++
          lines (nvram_safe_get e "pptp_client_custom" ++ "\n")) := by
  have htext : ∃ pre : String,
      written "/etc/vpn/options.vpn" (start_pptp_client e ⟨w, []⟩).trace =
        pre ++ ("unit " ++ unit_value e ++ "\n") ++
          (nvram_safe_get e "pptp_client_custom" ++ "\n") := by
    obtain ⟨A, hA⟩ := directive_pieces_unit e
    refine ⟨A.foldr (fun a b => a ++ b) "", ?_⟩
    rw [written_start e w hopen, options_text, write_options_pieces, hA, concat_snoc2]
  refine ⟨htext, unit_value_cases e, ?_, ?_⟩
  · intro habs
    obtain ⟨pre, hpre⟩ := htext
    rw [hpre, safe_get_absent e _ habs, String.empty_append, ← String.append_assoc,
      lines_append_newline]
    have h : lines "\n" = [""] := by decide
    rw [h, List.getLast?_append]
    rfl
  · rw [written_start e w hopen, lines_options_text]
    unfold option_lines
    exact ⟨_, rfl⟩

theorem custom_line_last_witness :
    Event.fopen "/etc/vpn/options.vpn" "w" (some "/etc/vpn/options.vpn") ∈
        (start_pptp_client env_custom_debug ⟨w_idle, []⟩).trace ∧
      ∃ pre : String,
        written "/etc/vpn/options.vpn" (start_pptp_client env_custom_debug ⟨w_idle, []⟩).trace =
          pre ++ ("unit " ++ unit_value env_custom_debug ++ "\n") ++
            (nvram_safe_get env_custom_debug "pptp_client_custom" ++ "\n") :=
  ⟨by decide, (custom_line_last env_custom_debug w_idle (by decide)).1⟩

/-- C11, as first stated, fails: with a server address of two lines
(`vpn.example.net`, newline, `debug`) the ninth line of the configuration is
`pptp_server vpn.example.net`, not `pptp_server S`, and the tenth line is the
rest of the address, ahead of every parameter-dependent directive. -/
theorem header_split_by_address :
    Event.fopen "/etc/vpn/options.vpn" "w" (some "/etc/vpn/options.vpn") ∈
        (start_pptp_client env_srv_newline ⟨w_idle, []⟩).trace ∧
      (lines (written "/etc/vpn/options.vpn"
          (start_pptp_client env_srv_newline ⟨w_idle, []⟩).trace)).take 10 =
        ["lock", "noauth", "refuse-eap", "lcp-echo-failure 3", "lcp-echo-interval 2",
          "maxfail 0", "persist", "plugin pptp.so", "pptp_server vpn.example.net", "debug"] ∧
      (lines (written "/etc/vpn/options.vpn"
          (start_pptp_client env_srv_newline ⟨w_idle, []⟩).trace)).take 9 ≠
        ["lock", "noauth", "refuse-eap", "lcp-echo-failure 3", "lcp-echo-interval 2",
          "maxfail 0", "persist", "plugin pptp.so",
          "pptp_server " ++ nvram_safe_get env_srv_newline "pptp_client_srvip"] := by
  decide

/-- C11, amended. Whenever `start_pptp_client` opens the configuration file
and the server address S holds no newline, the lines of the text it writes are
the nine lines `lock`, `noauth`, `refuse-eap`, `lcp-echo-failure 3`,
`lcp-echo-interval 2`, `maxfail 0`, `persist`, `plugin pptp.so`,
`pptp_server S` (S empty when the address is absent), followed in this order
by: `defaultroute` if enabled, `usepeerdns` if enabled, the four lines of the
idle block, the lines of `mtu`, of `mru` if enabled, of `name` and `password`
if present, the encryption lines, the stateful line, `unit N` and the lines of
the custom string. -/
theorem header_lines (e : Env) (w : World)
    (hopen : Event.fopen "/etc/vpn/options.vpn" "w" (some "/etc/vpn/options.vpn") ∈
      (start_pptp_client e ⟨w, []⟩).trace)
    (hS : '\n' ∉ (nvram_safe_get e "pptp_client_srvip").data) :
    lines (written "/etc/vpn/options.vpn" (start_pptp_client e ⟨w, []⟩).trace) =
      ["lock", "noauth", "refuse-eap", "lcp-echo-failure 3", "lcp-echo-interval 2", "maxfail 0",
        "persist", "plugin pptp.so", "pptp_server " ++ nvram_safe_get e "pptp_client_srvip"] ++
      ((if nvram_get_int e "pptp_client_dfltroute" ≠ 0 then ["defaultroute"] else []) ++
      ((if nvram_get_int e "pptp_client_peerdns" ≠ 1 then ["usepeerdns"] else []) ++
      (["idle 0", "ip-up-script /etc/vpn/ip-up", "ip-down-script /etc/vpn/ip-down",
        "ipparam kelokepptpd"] ++
      (lines ("mtu " ++ mtu_value e ++ "\n") ++
      ((if nvram_get_int e "pptp_client_mruenable" = 0 then lines ("mru " ++ mru_value e ++ "\n")
        else []) ++
      (name_lines e ++
      (password_lines e ++
      ((if nvram_get_int e "pptp_client_crypt" = 1 then ["nomppe"]
        else if nvram_get_int e "pptp_client_crypt" = 2 then ["nomppe-40", "require-mppe-128"]
        else if nvram_get_int e "pptp_client_crypt" = 3 then ["require-mppe"]
        else []) ++
      ((if nvram_get_int e "pptp_client_stateless" = 0 then ["mppe-stateful"]
        else ["nomppe-stateful"]) ++
      (["unit " ++ unit_value e] ++
      lines (nvram_safe_get e "pptp_client_custom" ++ "\n"))))))))))) ∧
    (nvram_get e "pptp_client_srvip" = none → nvram_safe_get e "pptp_client_srvip" = "") := by
  refine ⟨?_, fun h => safe_get_absent e _ (Or.inl h)⟩
  rw [written_start e w hopen, lines_options_text]
  unfold option_lines
  rw [lines_key_value_plain "pptp_server " _ (by decide) hS]
  simp only [List.append_assoc, List.cons_append, List.nil_append]

theorem header_lines_witness :
    Event.fopen "/etc/vpn/options.vpn" "w" (some "/etc/vpn/options.vpn") ∈
        (start_pptp_client env_ok ⟨w_idle, []⟩).trace ∧
      '\n' ∉ (nvram_safe_get env_ok "pptp_client_srvip").data ∧
      (lines (written "/etc/vpn/options.vpn" (start_pptp_client env_ok ⟨w_idle, []⟩).trace)).take 9 =
        ["lock", "noauth", "refuse-eap", "lcp-echo-failure 3", "lcp-echo-interval 2", "maxfail 0",
          "persist", "plugin pptp.so", "pptp_server 10.0.0.1"] := by
  refine ⟨by decide, by decide, ?_⟩
  rw [(header_lines env_ok w_idle (by decide) (by decide)).1]
  rfl

theorem count_alias_map (ps : List String) :
    List.countP spawns_alias (ps.map (Event.fprintf "/etc/vpn/options.vpn")) = 0 := by
  induction ps with
  | nil => rfl
  | cons p ps ih => rw [List.map_cons, List.countP_cons, ih]; rfl

theorem count_alias_comp (ps : List String) :
    List.countP (spawns_alias ∘ Event.fprintf "/etc/vpn/options.vpn") ps = 0 := by
  rw [← List.countP_map]
  exact count_alias_map ps

/-- C17. In every call of `start_pptp_client`: each spawn in the call log whose
program is the alias `/etc/vpn/pptpclient` carries exactly the vector
`/etc/vpn/pptpclient`, `file`, `/etc/vpn/options.vpn`; the only other spawn is
the removal command of the cleanup; the alias is spawned at most once; and the
array handed over holds these three tokens followed by `NULL`. -/
theorem launcher_argv (e : Env) (w : World) :
    (∀ argv st, Event._eval argv st ∈ (start_pptp_client e ⟨w, []⟩).trace →
      argv = launch_argv ∨ argv = stop_argv) ∧
    (∀ argv st, Event._eval argv st ∈ (start_pptp_client e ⟨w, []⟩).trace →
      argv.head? = some "/etc/vpn/pptpclient" →
      argv = ["/etc/vpn/pptpclient", "file", "/etc/vpn/options.vpn"]) ∧
    List.countP spawns_alias (start_pptp_client e ⟨w, []⟩).trace ≤ 1 ∧
    (argv_stores start_command).map Prod.snd =
      [some "/etc/vpn/pptpclient", some "file", some "/etc/vpn/options.vpn", none] := by
  have hmem : ∀ argv st, Event._eval argv st ∈ (start_pptp_client e ⟨w, []⟩).trace →
      argv = launch_argv ∨ argv = stop_argv := by
    intro argv st hin
    by_cases hrun : (pidof "pptpclient" ⟨w, []⟩).1 < 0
    · obtain ⟨p, u1, u2, u3, u4, u5, m, s1, s2, u6, s3, a, b, st1, hc⟩ :=
        start_trace_cases e w hrun
      rcases hc with ⟨-, -, -, ht⟩ | ⟨-, -, ht⟩ | ⟨-, -, -, ht⟩ | ⟨-, -, -, -, ht⟩ | ⟨-, -, ht⟩ <;>
      · rw [ht] at hin
        simp [wire_events, stop_events, config_events] at hin
        unfold stop_argv
        tauto
    · exfalso
      have h0 : (pidof "pptpclient" ⟨w, []⟩).1 ≥ 0 := not_lt.mp hrun
      rw [start_eq, if_pos h0] at hin
      simp [pidof] at hin
  refine ⟨hmem, ?_, ?_, by decide⟩
  · intro argv st hin hhead
    rcases hmem argv st hin with h | h
    · exact h
    · rw [h] at hhead; exact absurd hhead (by decide)
  · by_cases hrun : (pidof "pptpclient" ⟨w, []⟩).1 < 0
    · obtain ⟨p, u1, u2, u3, u4, u5, m, s1, s2, u6, s3, a, b, st1, hc⟩ :=
        start_trace_cases e w hrun
      rcases hc with ⟨-, -, -, ht⟩ | ⟨-, -, ht⟩ | ⟨-, -, -, ht⟩ | ⟨-, -, -, -, ht⟩ | ⟨-, -, ht⟩ <;>
      · rw [ht]
        simp [wire_events, stop_events, config_events, List.countP_cons, List.countP_append,
          count_alias_comp, spawns_alias, launch_argv]
    · have h0 : (pidof "pptpclient" ⟨w, []⟩).1 ≥ 0 := not_lt.mp hrun
      rw [start_eq, if_pos h0]
      simp [pidof, List.countP_cons, spawns_alias]

/-- A call of `start_pptp_client` on an idle system spawns the launcher. -/
theorem launcher_spawned_idle :
    Event._eval launch_argv 0 ∈ (start_pptp_client env_ok ⟨w_idle, []⟩).trace ∧
      List.countP spawns_alias (start_pptp_client env_ok ⟨w_idle, []⟩).trace = 1 := by
  decide

/-- A line that starts with a key no encryption directive starts with is not
an encryption directive. -/
theorem key_line_not_encryption (k : String) (hkk : hasKey k k = true)
    (h : ∀ d ∈ encryption_lines, hasKey k d = false) (l0 : String) :
    is_encryption_line (k ++ l0) = false := by
  have h1 := key_append_ne k "nomppe" l0 hkk (h _ (by decide))
  have h2 := key_append_ne k "nomppe-40" l0 hkk (h _ (by decide))
  have h3 := key_append_ne k "require-mppe-128" l0 hkk (h _ (by decide))
  have h4 := key_append_ne k "require-mppe" l0 hkk (h _ (by decide))
  rw [decide_eq_false_iff_not] at h1 h2 h3 h4
  unfold is_encryption_line encryption_lines
  simp [h1, h2, h3, h4]

/-- C12 fails as stated: with no encryption mode, no custom options and the
user name `alice`, newline, `require-mppe`, the configuration has the line
`require-mppe` ahead of the custom line, although the mode is 0. -/
theorem username_adds_encryption_line :
    Event.fopen "/etc/vpn/options.vpn" "w" (some "/etc/vpn/options.vpn") ∈
      (start_pptp_client env_user_newline ⟨w_idle, []⟩).trace ∧
    nvram_get_int env_user_newline "pptp_client_crypt" = 0 ∧
    nvram_get env_user_newline "pptp_client_custom" = none ∧
    lines (written "/etc/vpn/options.vpn"
        (start_pptp_client env_user_newline ⟨w_idle, []⟩).trace) =
      ["lock", "noauth", "refuse-eap", "lcp-echo-failure 3", "lcp-echo-interval 2", "maxfail 0",
        "persist", "plugin pptp.so", "pptp_server 10.0.0.1", "usepeerdns", "idle 0",
        "ip-up-script /etc/vpn/ip-up", "ip-down-script /etc/vpn/ip-down", "ipparam kelokepptpd",
        "mtu 1450", "mru 1450", "name alice", "require-mppe", "password secret",
        "mppe-stateful", "unit 0"] ++
      lines (nvram_safe_get env_user_newline "pptp_client_custom" ++ "\n") ∧
    ["lock", "noauth", "refuse-eap", "lcp-echo-failure 3", "lcp-echo-interval 2", "maxfail 0",
        "persist", "plugin pptp.so", "pptp_server 10.0.0.1", "usepeerdns", "idle 0",
        "ip-up-script /etc/vpn/ip-up", "ip-down-script /etc/vpn/ip-down", "ipparam kelokepptpd",
        "mtu 1450", "mru 1450", "name alice", "require-mppe", "password secret",
        "mppe-stateful", "unit 0"].filter is_encryption_line = ["require-mppe"] := by
  decide

/-- C12, amended. Whenever `start_pptp_client` opens the configuration file
and no line of the stored server address, MTU override, MRU override, user
name or password is itself an encryption directive, the lines of the text
ahead of the lines of the custom string hold, as encryption directives,
exactly: `nomppe` for the integer mode `m = 1`; `nomppe-40` then
`require-mppe-128` for `m = 2`; `require-mppe` for `m = 3`; none for every
other value of `m`. -/
theorem encryption_lines_by_mode (e : Env) (w : World)
    (hopen : Event.fopen "/etc/vpn/options.vpn" "w" (some "/etc/vpn/options.vpn") ∈
      (start_pptp_client e ⟨w, []⟩).trace)
    (hfree : ∀ key ∈ stored_value_keys, ∀ l ∈ lines (nvram_safe_get e key),
      is_encryption_line l = false) :
    ∃ body : List String,
      lines (written "/etc/vpn/options.vpn" (start_pptp_client e ⟨w, []⟩).trace) =
        body ++ lines (nvram_safe_get e "pptp_client_custom" ++ "\n") ∧
      body.filter is_encryption_line =
        (if nvram_get_int e "pptp_client_crypt" = 1 then ["nomppe"]
         else if nvram_get_int e "pptp_client_crypt" = 2 then ["nomppe-40", "require-mppe-128"]
         else if nvram_get_int e "pptp_client_crypt" = 3 then ["require-mppe"]
         else []) := by
  have h_srv := hfree "pptp_client_srvip" (by decide)
  have h_mtu := hfree "pptp_client_mtu" (by decide)
  have h_mru := hfree "pptp_client_mru" (by decide)
  have h_usr := hfree "pptp_client_username" (by decide)
  have h_pwd := hfree "pptp_client_passwd" (by decide)
  have p1 : ["lock", "noauth", "refuse-eap", "lcp-echo-failure 3", "lcp-echo-interval 2",
      "maxfail 0", "persist", "plugin pptp.so"].filter is_encryption_line = [] := by
    decide
  have p2 : (lines ("pptp_server " ++ nvram_safe_get e "pptp_client_srvip" ++ "\n")).filter
      is_encryption_line = [] :=
    filter_nil_of_forall _ _ (lines_key_value_forall is_encryption_line "pptp_server " _
      (by decide) (key_line_not_encryption _ (by decide) (by decide)) (by decide) h_srv)
  have p3 : (if nvram_get_int e "pptp_client_dfltroute" ≠ 0 then ["defaultroute"]
      else []).filter is_encryption_line = [] := by
    split <;> decide
  have p4 : (if nvram_get_int e "pptp_client_peerdns" ≠ 1 then ["usepeerdns"]
      else []).filter is_encryption_line = [] := by
    split <;> decide
  have p5 : ["idle 0", "ip-up-script /etc/vpn/ip-up", "ip-down-script /etc/vpn/ip-down",
      "ipparam kelokepptpd"].filter is_encryption_line = [] := by
    decide
  have p6 : (lines ("mtu " ++ mtu_value e ++ "\n")).filter is_encryption_line = [] :=
    filter_nil_of_forall _ _ (lines_key_value_forall is_encryption_line "mtu " _
      (by decide) (key_line_not_encryption _ (by decide) (by decide)) (by decide)
      (mtu_value_lines _ e (by decide) (fun v hg => get_lines_of_safe _ e _ v hg h_mtu)))
  have p7 : (if nvram_get_int e "pptp_client_mruenable" = 0 then
      lines ("mru " ++ mru_value e ++ "\n") else []).filter is_encryption_line = [] := by
    split
    · exact filter_nil_of_forall _ _ (lines_key_value_forall is_encryption_line "mru " _
        (by decide) (key_line_not_encryption _ (by decide) (by decide)) (by decide)
        (mru_value_lines _ e (by decide) (fun v hg => get_lines_of_safe _ e _ v hg h_mru)))
    · rfl
  have p8 : (name_lines e).filter is_encryption_line = [] := by
    unfold name_lines
    cases hg : nvram_get e "pptp_client_username" with
    | none => rfl
    | some u =>
      exact filter_nil_of_forall _ _ (lines_key_value_forall is_encryption_line "name " _
        (by decide) (key_line_not_encryption _ (by decide) (by decide)) (by decide)
        (get_lines_of_safe _ e _ u hg h_usr))
  have p9 : (password_lines e).filter is_encryption_line = [] := by
    unfold password_lines
    cases hg : nvram_get e "pptp_client_passwd" with
    | none => rfl
    | some u =>
      exact filter_nil_of_forall _ _ (lines_key_value_forall is_encryption_line "password " _
        (by decide) (key_line_not_encryption _ (by decide) (by decide)) (by decide)
        (get_lines_of_safe _ e _ u hg h_pwd))
  have p10 : (if nvram_get_int e "pptp_client_crypt" = 1 then ["nomppe"]
      else if nvram_get_int e "pptp_client_crypt" = 2 then ["nomppe-40", "require-mppe-128"]
      else if nvram_get_int e "pptp_client_crypt" = 3 then ["require-mppe"]
      else []).filter is_encryption_line =
      (if nvram_get_int e "pptp_client_crypt" = 1 then ["nomppe"]
       else if nvram_get_int e "pptp_client_crypt" = 2 then ["nomppe-40", "require-mppe-128"]
       else if nvram_get_int e "pptp_client_crypt" = 3 then ["require-mppe"]
       else []) := by
    split
    · decide
    · split
      · decide
      · split <;> decide
  have p11 : (if nvram_get_int e "pptp_client_stateless" = 0 then ["mppe-stateful"]
      else ["nomppe-stateful"]).filter is_encryption_line = [] := by
    split <;> decide
  have p12 : (["unit " ++ unit_value e] : List String).filter is_encryption_line = [] := by
    unfold unit_value
    cases get_wan_proto e <;> decide
  rw [written_start e w hopen, lines_options_text]
  unfold option_lines
  refine ⟨_, rfl, ?_⟩
  simp only [List.filter_append, p1, p2, p3, p4, p5, p6, p7, p8, p9, p10, p11, p12,
    List.append_nil, List.nil_append]

theorem encryption_lines_by_mode_witness :
    Event.fopen "/etc/vpn/options.vpn" "w" (some "/etc/vpn/options.vpn") ∈
      (start_pptp_client env_routed ⟨w_idle, []⟩).trace ∧
    nvram_get_int env_routed "pptp_client_crypt" = 2 ∧
    ∃ body : List String,
      lines (written "/etc/vpn/options.vpn" (start_pptp_client env_routed ⟨w_idle, []⟩).trace) =
        body ++ lines (nvram_safe_get env_routed "pptp_client_custom" ++ "\n") ∧
      body.filter is_encryption_line =
        (if nvram_get_int env_routed "pptp_client_crypt" = 1 then ["nomppe"]
         else if nvram_get_int env_routed "pptp_client_crypt" = 2 then
           ["nomppe-40", "require-mppe-128"]
         else if nvram_get_int env_routed "pptp_client_crypt" = 3 then ["require-mppe"]
         else []) :=
  ⟨by decide, by decide, encryption_lines_by_mode env_routed w_idle (by decide) (by decide)⟩

end PptpClient

namespace Recent

theorem parse_command_inv (bit : Nat) (hbit : bit = 1 ∨ bit = 2 ∨ bit = 4 ∨ bit = 8)
    (optarg : Option String) (invert : Bool) (flags : Nat) (info : xt_recent_mtinfo)
    (r : Int × Nat × xt_recent_mtinfo)
    (h : parse_command bit optarg invert flags info = Except.ok r)
    (hinv : Inv flags info.check_set) : Inv r.2.1 r.2.2.check_set := by
  unfold parse_command at h
  by_cases hf : flags ≠ 0
  · rw [if_pos hf] at h; cases h
  · rw [if_neg hf] at h
    cases hci : check_inverse optarg invert with
    | error f => rw [hci] at h; cases h
    | ok inv =>
      rw [hci] at h
      injection h with h
      subst h
      have hf0 : flags = 0 := not_not.mp hf
      rcases hinv with ⟨-, hc⟩ | ⟨h1, -⟩
      · right
        refine ⟨rfl, ?_⟩
        dsimp only
        rcases hc with hc | hc <;> rcases hbit with hb | hb | hb | hb <;> rw [hc, hb] <;> decide
      · omega

theorem parse_inv (c : Int) (optarg : Option String) (invert : Bool) (flags : Nat)
    (info : xt_recent_mtinfo) (r : Int × Nat × xt_recent_mtinfo)
    (h : parse c optarg invert flags info = Except.ok r)
    (hinv : Inv flags info.check_set) : Inv r.2.1 r.2.2.check_set := by
  unfold parse at h
  by_cases h1 : c = 201
  · rw [if_pos h1] at h
    exact parse_command_inv _ (by decide) _ _ _ _ _ h hinv
  rw [if_neg h1] at h
  by_cases h2 : c = 202
  · rw [if_pos h2] at h
    exact parse_command_inv _ (by decide) _ _ _ _ _ h hinv
  rw [if_neg h2] at h
  by_cases h3 : c = 203
  · rw [if_pos h3] at h
    exact parse_command_inv _ (by decide) _ _ _ _ _ h hinv
  rw [if_neg h3] at h
  by_cases h6 : c = 206
  · rw [if_pos h6] at h
    exact parse_command_inv _ (by decide) _ _ _ _ _ h hinv
  rw [if_neg h6] at h
  by_cases h4 : c = 204
  · rw [if_pos h4] at h
    cases optarg with
    | none => cases h
    | some a => injection h with h; subst h; exact hinv
  rw [if_neg h4] at h
  by_cases h5 : c = 205
  · rw [if_pos h5] at h
    cases optarg with
    | none => cases h
    | some a => injection h with h; subst h; exact hinv
  rw [if_neg h5] at h
  by_cases h7 : c = 207
  · rw [if_pos h7] at h
    injection h with h
    subst h
    show Inv flags (info.check_set ||| XT_RECENT_TTL)
    rcases hinv with ⟨h0, hc⟩ | ⟨h1, hc⟩
    · left
      refine ⟨h0, ?_⟩
      rcases hc with hc | hc <;> rw [hc] <;> decide
    · right
      refine ⟨h1, ?_⟩
      rcases hc with hc | hc | hc | hc | hc | hc | hc | hc <;> rw [hc] <;> decide
  rw [if_neg h7] at h
  by_cases h8 : c = 208
  · rw [if_pos h8] at h
    cases optarg with
    | none => cases h
    | some a => injection h with h; subst h; exact hinv
  rw [if_neg h8] at h
  by_cases h9 : c = 209
  · rw [if_pos h9] at h
    injection h with h; subst h; exact hinv
  rw [if_neg h9] at h
  by_cases h10 : c = 210
  · rw [if_pos h10] at h
    injection h with h; subst h; exact hinv
  rw [if_neg h10] at h
  injection h with h; subst h; exact hinv

theorem parse_all_inv (args : List Arg) (flags0 : Nat) (info0 : xt_recent_mtinfo)
    (flags : Nat) (info : xt_recent_mtinfo)
    (h : parse_all args flags0 info0 = Except.ok (flags, info))
    (hinv : Inv flags0 info0.check_set) : Inv flags info.check_set := by
  induction args generalizing flags0 info0 with
  | nil =>
    unfold parse_all at h
    injection h with h
    injection h with h1 h2
    subst h1 h2
    exact hinv
  | cons a rest ih =>
    unfold parse_all at h
    cases hp : parse a.1 a.2.1 a.2.2 flags0 info0 with
    | error f => rw [hp] at h; cases h
    | ok r =>
      rw [hp] at h
      exact ih _ _ h (parse_inv _ _ _ _ _ _ hp hinv)

theorem command_rejected (c : Int) (hc : c = 201 ∨ c = 202 ∨ c = 203 ∨ c = 206)
    (optarg : Option String) (invert : Bool) (flags : Nat) (info : xt_recent_mtinfo)
    (hf : flags ≠ 0) :
    parse c optarg invert flags info = Except.error (Failure.PARAMETER_PROBLEM
      "recent: only one of `--set', `--rcheck' `--update' or `--remove' may be set") := by
  rcases hc with rfl | rfl | rfl | rfl <;> simp [parse, parse_command, hf]

/-- C18. Starting from the zero-initialised record and flags 0, after every
sequence of options that `parse` accepts: at most one of the command bits SET,
CHECK, UPDATE, REMOVE is set in `check_set`; if `final_check` passes, exactly
one is set; and once one is set, each of the command options 201, 202, 203,
206 is rejected with a parameter problem, whatever its argument. -/
theorem one_command (args : List Arg) (flags : Nat) (info : xt_recent_mtinfo)
    (h : parse_all args 0 zero_info = Except.ok (flags, info)) :
    (command_bits info.check_set).length ≤ 1 ∧
    (final_check flags = Except.ok () → (command_bits info.check_set).length = 1) ∧
    ((command_bits info.check_set).length = 1 →
      ∀ c, c = 201 ∨ c = 202 ∨ c = 203 ∨ c = 206 → ∀ optarg invert,
        ∃ msg, parse c optarg invert flags info =
          Except.error (Failure.PARAMETER_PROBLEM msg)) := by
  have hinv : Inv flags info.check_set :=
    parse_all_inv args 0 zero_info flags info h (Or.inl ⟨rfl, Or.inl rfl⟩)
  rcases hinv with ⟨h0, hc⟩ | ⟨h1, hc⟩
  · refine ⟨?_, ?_, ?_⟩
    · rcases hc with hc | hc <;> rw [hc] <;> decide
    · intro hfc; rw [h0] at hfc; cases hfc
    · intro hlen; exfalso
      rcases hc with hc | hc <;> rw [hc] at hlen <;> revert hlen <;> decide
  · refine ⟨?_, ?_, ?_⟩
    · rcases hc with hc | hc | hc | hc | hc | hc | hc | hc <;> rw [hc] <;> decide
    · intro _
      rcases hc with hc | hc | hc | hc | hc | hc | hc | hc <;> rw [hc] <;> decide
    · intro _ c hcc optarg invert
      exact ⟨_, command_rejected c hcc optarg invert flags info (by omega)⟩

theorem one_command_witness :
    parse_all args_update 0 zero_info = Except.ok (1, ⟨60, 3, 20, 1, "ssh", 1⟩) ∧
      (command_bits 20).length ≤ 1 :=
  ⟨by decide, (one_command args_update 1 ⟨60, 3, 20, 1, "ssh", 1⟩ (by decide)).1⟩

/-- C19 fails on the code. The options `--set --name ""` are accepted and pass
`final_check`; the record they leave has the empty list name, which contains
no white space; `save` prints `--set --name  --rsource ` for it, and that
line, fed back through `init` and `parse`, is accepted with the list name
`--rsource`: the record read back differs from the one saved. -/
theorem save_empty_name_not_parsable :
    parse_all args_empty_name 0 (init zero_info) = Except.ok (1, info_empty_name) ∧
    final_check 1 = Except.ok () ∧
    (∀ c ∈ info_empty_name.name.data, c.isWhitespace = false) ∧
    save info_empty_name = "--set --name  --rsource " ∧
    words (save info_empty_name) = ["--set", "--name", "--rsource"] ∧
    restore (save info_empty_name) = Except.ok (1, ⟨0, 0, 2, 0, "--rsource", 0⟩) ∧
    restore (save info_empty_name) ≠ Except.ok (1, info_empty_name) := by
  decide

/-- A record with a non-empty list name, saved and fed back, is read back
unchanged. -/
theorem save_restore_update :
    parse_all args_update 0 (init zero_info) = Except.ok (1, info_update) ∧
    save info_update = "! --update --seconds 60 --hitcount 3 --rttl --name ssh --rdest " ∧
    restore (save info_update) = Except.ok (1, info_update) := by
  decide

end Recent
